import Mathlib

/-!
Verification development for the AeroVista computational core.

The TypeScript sources under `src/utils` (solar.ts, geodesic.ts, timeline.ts,
aircraft.ts, daylight.ts) are shallowly embedded below: every numeric value is
modelled as a real number, `Math.sin`/`Math.cos`/… as the corresponding real
functions, the ECMAScript remainder operator `%` as `jsMod`, `Math.floor` as
`Int.floor`, and JavaScript `Date` objects as their epoch-millisecond time
value together with the standard proleptic-Gregorian field getters and
setters.  Fields of purely presentational type (recommendation strings,
event descriptions, airport identification strings) are omitted; no claim
refers to them.  JavaScript division by zero yields Infinity/NaN, which have
no counterpart in ℝ; in the embedding `x / 0 = 0`, and every theorem that
depends on a division is stated on inputs for which the divisor semantics
agree.
-/

noncomputable section

open Real

/-- ECMAScript ToIntegerOrInfinity on a finite real: truncation toward zero. -/
def jsTrunc (t : ℝ) : ℤ :=
  if 0 ≤ t then ⌊t⌋ else ⌈t⌉

/-- ECMAScript remainder operator `%` on finite reals: the result has the sign
of the dividend, `x % y = x - y * trunc (x / y)`. -/
def jsMod (x y : ℝ) : ℝ :=
  x - y * (jsTrunc (x / y) : ℝ)

/-- `Math.atan2 y x`, in radians, with range `(-π, π]`. -/
def atan2 (y x : ℝ) : ℝ :=
  if 0 < x then arctan (y / x)
  else if x < 0 then
    (if 0 ≤ y then arctan (y / x) + π else arctan (y / x) - π)
  else
    (if 0 < y then π / 2 else if y < 0 then -(π / 2) else 0)

/-! ## JavaScript `Date` model

A `Date` is its time value: milliseconds since the Unix epoch, UTC.  The
calendar getters follow the ECMAScript specification (proleptic Gregorian
calendar); the year/month/day decomposition of a day number uses the standard
civil-from-days algorithm, with all divisions taken as floor divisions.
-/

/-- Calendar fields of a day number. -/
structure CivilDate where
  year : ℤ
  month : ℤ
  day : ℤ

/-- Convert a day number (days since 1970-01-01) to a civil calendar date. -/
def civilFromDays (z0 : ℤ) : CivilDate :=
  let z := z0 + 719468
  let era := Int.fdiv z 146097
  let doe := z - era * 146097
  let yoe := Int.fdiv (doe - Int.fdiv doe 1460 + Int.fdiv doe 36524 - Int.fdiv doe 146096) 365
  let y := yoe + era * 400
  let doy := doe - (365 * yoe + Int.fdiv yoe 4 - Int.fdiv yoe 100)
  let mp := Int.fdiv (5 * doy + 2) 153
  let d := doy - Int.fdiv (153 * mp + 2) 5 + 1
  let m := mp + (if mp < 10 then 3 else -9)
  ⟨y + (if m ≤ 2 then 1 else 0), m, d⟩

/-- Day number of a time value. -/
def utcDayNumber (t : ℝ) : ℤ := ⌊t / 86400000⌋

/-- `Date.prototype.getUTCFullYear`. -/
def getUTCFullYear (t : ℝ) : ℤ := (civilFromDays (utcDayNumber t)).year

/-- `Date.prototype.getUTCMonth` (0-indexed months, as in JavaScript). -/
def getUTCMonth (t : ℝ) : ℤ := (civilFromDays (utcDayNumber t)).month - 1

/-- `Date.prototype.getUTCDate` (day of month). -/
def getUTCDate (t : ℝ) : ℤ := (civilFromDays (utcDayNumber t)).day

/-- `Date.prototype.getUTCHours`. -/
def getUTCHours (t : ℝ) : ℤ := Int.emod ⌊t / 3600000⌋ 24

/-- `Date.prototype.getUTCMinutes`. -/
def getUTCMinutes (t : ℝ) : ℤ := Int.emod ⌊t / 60000⌋ 60

/-- `Date.prototype.getUTCSeconds`. -/
def getUTCSeconds (t : ℝ) : ℤ := Int.emod ⌊t / 1000⌋ 60

/-- Milliseconds-within-second component of a time value. -/
def utcMsWithin (t : ℝ) : ℝ := t - 1000 * (⌊t / 1000⌋ : ℝ)

/-- `Date.prototype.setUTCHours h` (one argument): rebuild the time value from
the same day with the hour replaced; minutes, seconds and milliseconds are
kept.  Out-of-range hours roll the day over, as in ECMAScript `MakeTime`. -/
def setUTCHours (t h : ℝ) : ℝ :=
  (utcDayNumber t : ℝ) * 86400000 + (jsTrunc h : ℝ) * 3600000
    + (getUTCMinutes t : ℝ) * 60000 + (getUTCSeconds t : ℝ) * 1000 + utcMsWithin t

/-- `Date.prototype.setUTCHours h m s ms` (four arguments). -/
def setUTCHours4 (t h m s ms : ℝ) : ℝ :=
  (utcDayNumber t : ℝ) * 86400000 + (jsTrunc h : ℝ) * 3600000
    + (jsTrunc m : ℝ) * 60000 + (jsTrunc s : ℝ) * 1000 + (jsTrunc ms : ℝ)

/-- `Date.prototype.setUTCMinutes m` (one argument). -/
def setUTCMinutes (t m : ℝ) : ℝ :=
  (utcDayNumber t : ℝ) * 86400000 + (getUTCHours t : ℝ) * 3600000
    + (jsTrunc m : ℝ) * 60000 + (getUTCSeconds t : ℝ) * 1000 + utcMsWithin t

/-- `Date.prototype.setUTCSeconds s` (one argument). -/
def setUTCSeconds (t s : ℝ) : ℝ :=
  (utcDayNumber t : ℝ) * 86400000 + (getUTCHours t : ℝ) * 3600000
    + (getUTCMinutes t : ℝ) * 60000 + (jsTrunc s : ℝ) * 1000 + utcMsWithin t

/-- `Date.prototype.setUTCMilliseconds ms` (one argument). -/
def setUTCMilliseconds (t ms : ℝ) : ℝ :=
  (utcDayNumber t : ℝ) * 86400000 + (getUTCHours t : ℝ) * 3600000
    + (getUTCMinutes t : ℝ) * 60000 + (getUTCSeconds t : ℝ) * 1000 + (jsTrunc ms : ℝ)

/-! ## `src/utils/solar.ts` -/

/-- Sun's position in the sky from the observer's perspective. -/
structure SunPosition where
  azimuth : ℝ
  altitude : ℝ
  zenith : ℝ
  distance : ℝ
  rightAscension : ℝ
  declination : ℝ

/-- Degrees to radians. -/
def toRadians (degrees : ℝ) : ℝ := degrees * π / 180

/-- Radians to degrees. -/
def toDegrees (radians : ℝ) : ℝ := radians * 180 / π

/-- `Math.sin` of an angle in degrees. -/
def sinDeg (degrees : ℝ) : ℝ := Real.sin (toRadians degrees)

/-- `Math.cos` of an angle in degrees. -/
def cosDeg (degrees : ℝ) : ℝ := Real.cos (toRadians degrees)

/-- `Math.tan` of an angle in degrees. -/
def tanDeg (degrees : ℝ) : ℝ := Real.tan (toRadians degrees)

/-- `Math.asin`, reported in degrees. -/
def asinDeg (x : ℝ) : ℝ := toDegrees (arcsin x)

/-- `Math.acos`, reported in degrees. -/
def acosDeg (x : ℝ) : ℝ := toDegrees (arccos x)

/-- `Math.atan2`, reported in degrees. -/
def atan2Deg (y x : ℝ) : ℝ := toDegrees (atan2 y x)

/-- Convert a `Date` (time value) to a Julian Day, exactly as `getJulianDay`:
the integer Julian Day Number from the calendar fields, plus the time of day
as a fractional day referenced to the noon epoch. -/
def getJulianDay (t : ℝ) : ℝ :=
  let year := getUTCFullYear t
  let month := getUTCMonth t + 1
  let day := getUTCDate t
  let hour := getUTCHours t
  let minute := getUTCMinutes t
  let second := getUTCSeconds t
  let a := Int.fdiv (14 - month) 12
  let y := year + 4800 - a
  let m := month + 12 * a - 3
  let jdn := day + Int.fdiv (153 * m + 2) 5 + 365 * y + Int.fdiv y 4
    - Int.fdiv y 100 + Int.fdiv y 400 - 32045
  let fraction := ((hour : ℝ) - 12) / 24 + (minute : ℝ) / 1440 + (second : ℝ) / 86400
  (jdn : ℝ) + fraction

/-- Julian centuries since the J2000.0 epoch. -/
def getJulianCentury (jd : ℝ) : ℝ := (jd - 2451545.0) / 36525.0

/-- Equatorial coordinates returned by `getSolarCoordinates`. -/
structure EquatorialCoords where
  rightAscension : ℝ
  declination : ℝ

/-- Sun's equatorial coordinates (right ascension in hours, declination in
degrees), simplified Meeus algorithm, exactly as `getSolarCoordinates`. -/
def getSolarCoordinates (jd : ℝ) : EquatorialCoords :=
  let T := getJulianCentury jd
  let L0 := jsMod (280.46646 + T * (36000.76983 + T * 0.0003032)) 360
  let M := jsMod (357.52911 + T * (35999.05029 - T * 0.0001537)) 360
  let C := (1.914602 - T * (0.004817 + T * 0.000014)) * sinDeg M
    + (0.019993 - T * 0.000101) * sinDeg (2 * M)
    + 0.000289 * sinDeg (3 * M)
  let sunLongitude := L0 + C
  let omega := 125.04 - 1934.136 * T
  let lambda := sunLongitude - 0.00569 - 0.00478 * sinDeg omega
  let epsilon0 := 23.439291 - T * (0.0130042 + T * (0.00000016 - T * 0.000000504))
  let epsilon := epsilon0 + 0.00256 * cosDeg omega
  let rightAscension := atan2Deg (cosDeg epsilon * sinDeg lambda) (cosDeg lambda)
  let declination := asinDeg (sinDeg epsilon * sinDeg lambda)
  ⟨jsMod (rightAscension + 360) 360 / 15, declination⟩

/-- Atmospheric refraction correction in degrees, exactly as
`getRefractionCorrection` (piecewise in the geometric altitude). -/
def getRefractionCorrection (altitude : ℝ) : ℝ :=
  if altitude > 85 then 0
  else if altitude > 5 then
    (58.1 / tanDeg altitude - 0.07 / (tanDeg altitude) ^ 3
      + 0.000086 / (tanDeg altitude) ^ 5) / 3600
  else if altitude > -0.575 then
    (1735 + altitude * (-518.2 + altitude * (103.4 + altitude * (-12.79 + altitude * 0.711)))) / 3600
  else
    -20.774 / tanDeg altitude / 3600

/-- Sun position as seen from an observer, exactly as `calculateSunPosition`. -/
def calculateSunPosition (lat lon : ℝ) (date : ℝ) : SunPosition :=
  let jd := getJulianDay date
  let coords := getSolarCoordinates jd
  let T := getJulianCentury jd
  let gmst := jsMod (280.46061837 + 360.98564736629 * (jd - 2451545.0)
    + T * T * (0.000387933 - T / 38710000)) 360
  let lst := jsMod (gmst + lon + 360) 360
  let hourAngle := lst - coords.rightAscension * 15
  let latRad := toRadians lat
  let haRad := toRadians hourAngle
  let decRad := toRadians coords.declination
  let sinAlt := Real.sin latRad * Real.sin decRad
    + Real.cos latRad * Real.cos decRad * Real.cos haRad
  let altitude := toDegrees (arcsin sinAlt)
  let cosAz := (Real.sin decRad - Real.sin latRad * sinAlt)
    / (Real.cos latRad * Real.cos (arcsin sinAlt))
  let azimuth0 := toDegrees (arccos (max (-1) (min 1 cosAz)))
  let azimuth := if Real.sin haRad > 0 then 360 - azimuth0 else azimuth0
  let altitudeRefracted := altitude + getRefractionCorrection altitude
  let zenith := 90 - altitudeRefracted
  { azimuth := jsMod (azimuth + 360) 360
    altitude := altitudeRefracted
    zenith := zenith
    distance := 1.0
    rightAscension := coords.rightAscension
    declination := coords.declination }

/-! ## `src/utils/geodesic.ts` -/

/-- Earth's mean radius in kilometers. -/
def EARTH_RADIUS_KM : ℝ := 6371

/-- A latitude/longitude pair, in degrees. -/
structure GeoPoint where
  lat : ℝ
  lon : ℝ

/-- A waypoint along a great-circle route. -/
structure Waypoint where
  lat : ℝ
  lon : ℝ
  distance : ℝ
  bearing : ℝ

/-- Great-circle distance in kilometers via the Haversine formula, exactly as
`calculateDistance`. -/
def calculateDistance (lat1 lon1 lat2 lon2 : ℝ) : ℝ :=
  let phi1 := toRadians lat1
  let phi2 := toRadians lat2
  let dphi := toRadians (lat2 - lat1)
  let dlam := toRadians (lon2 - lon1)
  let a := Real.sin (dphi / 2) * Real.sin (dphi / 2)
    + Real.cos phi1 * Real.cos phi2 * Real.sin (dlam / 2) * Real.sin (dlam / 2)
  let c := 2 * atan2 (Real.sqrt a) (Real.sqrt (1 - a))
  EARTH_RADIUS_KM * c

/-- Initial bearing from point 1 to point 2 in degrees `[0, 360)`, exactly as
`calculateInitialBearing`. -/
def calculateInitialBearing (lat1 lon1 lat2 lon2 : ℝ) : ℝ :=
  let phi1 := toRadians lat1
  let phi2 := toRadians lat2
  let dlam := toRadians (lon2 - lon1)
  let y := Real.sin dlam * Real.cos phi2
  let x := Real.cos phi1 * Real.sin phi2 - Real.sin phi1 * Real.cos phi2 * Real.cos dlam
  let theta := atan2 y x
  jsMod (toDegrees theta + 360) 360

/-- Spherical linear interpolation at a fraction along the great circle,
exactly as `intermediatePoint`, including the small-angular-distance guard. -/
def intermediatePoint (p1 p2 : GeoPoint) (fraction : ℝ) : GeoPoint :=
  let phi1 := toRadians p1.lat
  let lam1 := toRadians p1.lon
  let phi2 := toRadians p2.lat
  let lam2 := toRadians p2.lon
  let distance := calculateDistance p1.lat p1.lon p2.lat p2.lon
  let delta := distance / EARTH_RADIUS_KM
  if delta < 0.00001 then
    { lat := p1.lat, lon := p1.lon }
  else
    let a := Real.sin ((1 - fraction) * delta) / Real.sin delta
    let b := Real.sin (fraction * delta) / Real.sin delta
    let x := a * Real.cos phi1 * Real.cos lam1 + b * Real.cos phi2 * Real.cos lam2
    let y := a * Real.cos phi1 * Real.sin lam1 + b * Real.cos phi2 * Real.sin lam2
    let z := a * Real.sin phi1 + b * Real.sin phi2
    let phii := atan2 z (Real.sqrt (x * x + y * y))
    let lami := atan2 y x
    { lat := toDegrees phii, lon := toDegrees lami }

/-- One step of the date-line correction: given the (already corrected)
longitude of the previous waypoint, correct the rest of the list in order.
This is the loop body of `handleAntimeridianCrossing`. -/
def hacAux (prevLon : ℝ) : List Waypoint → List Waypoint
  | [] => []
  | w :: ws =>
    let diff := w.lon - prevLon
    let newLon := if diff > 180 then w.lon - 360
      else if diff < -180 then w.lon + 360 else w.lon
    { w with lon := newLon } :: hacAux newLon ws

/-- Date-line correction pass, exactly as `handleAntimeridianCrossing`: the
first waypoint is untouched, each later waypoint's longitude is shifted by
±360° whenever its delta to the corrected predecessor exceeds ±180°. -/
def handleAntimeridianCrossing : List Waypoint → List Waypoint
  | [] => []
  | w0 :: ws => w0 :: hacAux w0.lon ws

/-- Bearing attached to waypoint `i` (for `i < numPoints`): initial bearing
from the point at fraction `i/numPoints` toward the point at fraction
`(i+1)/numPoints`. -/
def wpBearing (origin destination : GeoPoint) (numPoints i : ℕ) : ℝ :=
  let point := intermediatePoint origin destination ((i : ℝ) / (numPoints : ℝ))
  let nextPoint := intermediatePoint origin destination (((i : ℝ) + 1) / (numPoints : ℝ))
  calculateInitialBearing point.lat point.lon nextPoint.lat nextPoint.lon

/-- Waypoint `i` as pushed by the loop in `generateWaypoints` (before the
date-line pass).  The final point (`i = numPoints`) repeats the bearing the
loop stored at index `numPoints - 1`. -/
def rawWaypoint (origin destination : GeoPoint) (numPoints i : ℕ) : Waypoint :=
  let fraction := (i : ℝ) / (numPoints : ℝ)
  let point := intermediatePoint origin destination fraction
  let totalDistance := calculateDistance origin.lat origin.lon destination.lat destination.lon
  { lat := point.lat
    lon := point.lon
    distance := totalDistance * fraction
    bearing := if i < numPoints then wpBearing origin destination numPoints i
      else wpBearing origin destination numPoints (numPoints - 1) }

/-- Waypoints along the great-circle route, exactly as `generateWaypoints`:
`numPoints + 1` interpolated points followed by the date-line pass. -/
def generateWaypoints (origin destination : GeoPoint) (numPoints : ℕ) : List Waypoint :=
  handleAntimeridianCrossing
    ((List.range (numPoints + 1)).map (rawWaypoint origin destination numPoints))

/-! ## `src/utils/timeline.ts` -/

/-- An airport; only the coordinates participate in any computation (the
identification strings are presentational and omitted). -/
structure Airport where
  lat : ℝ
  lon : ℝ

/-- Standard sunrise/sunset altitude accounting for refraction and the sun's
diameter (`SUNRISE_SUNSET_ALTITUDE` in daylight.ts). -/
def SUNRISE_SUNSET_ALTITUDE : ℝ := -0.833

/-- A point along the flight path with temporal and solar information. -/
structure TimelinePoint where
  lat : ℝ
  lon : ℝ
  distance : ℝ
  timestamp : ℝ
  elapsedMinutes : ℝ
  sunAzimuth : ℝ
  sunAltitude : ℝ
  sunZenith : ℝ
  isDaylight : Bool
  heading : ℝ
  speed : ℝ
  altitude : ℝ

/-- A sunrise or sunset transition detected along the timeline (the
description string is presentational and omitted). -/
structure SunEvent where
  isSunrise : Bool
  timestamp : ℝ
  lat : ℝ
  lon : ℝ
  pointIndex : ℕ

/-- Statistical summary of sun exposure during the flight. -/
structure TimelineStatistics where
  daylightMinutes : ℝ
  darknessMinutes : ℝ
  daylightPercentage : ℝ
  averageSunAltitude : ℝ
  maxSunAltitude : ℝ
  minSunAltitude : ℝ

/-- The complete flight timeline record. -/
structure FlightTimeline where
  points : List TimelinePoint
  origin : Airport
  destination : Airport
  totalDistance : ℝ
  totalDuration : ℝ
  sunEvents : List SunEvent
  statistics : TimelineStatistics

/-- The timeline point built for waypoint `wp` at position `index`, exactly as
the `waypoints.map` body in `generateFlightTimeline`. -/
def timelinePointAt (numWaypoints : ℕ) (departureTime totalDuration cruisingSpeed
    cruisingAltitude : ℝ) (index : ℕ) (wp : Waypoint) : TimelinePoint :=
  let fraction := (index : ℝ) / ((numWaypoints : ℝ) - 1)
  let elapsedMinutes := totalDuration * fraction
  let timestamp := departureTime + elapsedMinutes * 60000
  let sunPos := calculateSunPosition wp.lat wp.lon timestamp
  { lat := wp.lat
    lon := wp.lon
    distance := wp.distance
    timestamp := timestamp
    elapsedMinutes := elapsedMinutes
    sunAzimuth := sunPos.azimuth
    sunAltitude := sunPos.altitude
    sunZenith := sunPos.zenith
    isDaylight := decide (sunPos.altitude > SUNRISE_SUNSET_ALTITUDE)
    heading := wp.bearing
    speed := cruisingSpeed
    altitude := cruisingAltitude }

/-- Helper for `detectSunEvents`: scan with the previous point and the index
of the current point. -/
def detectSunEventsAux : TimelinePoint → List TimelinePoint → ℕ → List SunEvent
  | _, [], _ => []
  | prev, curr :: rest, i =>
    (if prev.isDaylight = true ∧ curr.isDaylight = false then
      [{ isSunrise := false, timestamp := curr.timestamp, lat := curr.lat,
         lon := curr.lon, pointIndex := i }] else [])
    ++ (if prev.isDaylight = false ∧ curr.isDaylight = true then
      [{ isSunrise := true, timestamp := curr.timestamp, lat := curr.lat,
         lon := curr.lon, pointIndex := i }] else [])
    ++ detectSunEventsAux curr rest (i + 1)

/-- Sunrise/sunset events along the timeline, exactly as `detectSunEvents`. -/
def detectSunEvents : List TimelinePoint → List SunEvent
  | [] => []
  | p :: rest => detectSunEventsAux p rest 1

/-- Largest element of a list of reals; the empty case is junk (JavaScript
`Math.max()` of no arguments is `-Infinity`, which has no counterpart in ℝ;
the timeline builder never produces an empty list). -/
def listMaxD : List ℝ → ℝ
  | [] => 0
  | h :: t => t.foldl max h

/-- Smallest element of a list of reals; empty case junk as in `listMaxD`. -/
def listMinD : List ℝ → ℝ
  | [] => 0
  | h :: t => t.foldl min h

/-- Statistical summary, exactly as `calculateStatistics`. -/
def calculateStatistics (points : List TimelinePoint) : TimelineStatistics :=
  let daylightPoints := points.filter (fun p => p.isDaylight)
  let totalDuration := match points.getLast? with
    | some p => p.elapsedMinutes
    | none => 0
  let daylightMinutes := ((daylightPoints.length : ℝ) / (points.length : ℝ)) * totalDuration
  let darknessMinutes := totalDuration - daylightMinutes
  let sunAltitudes := points.map (fun p => p.sunAltitude)
  let averageSunAltitude := sunAltitudes.foldl (· + ·) 0 / (sunAltitudes.length : ℝ)
  { daylightMinutes := daylightMinutes
    darknessMinutes := darknessMinutes
    daylightPercentage := daylightMinutes / totalDuration * 100
    averageSunAltitude := averageSunAltitude
    maxSunAltitude := listMaxD sunAltitudes
    minSunAltitude := listMinD sunAltitudes }

/-- Complete flight timeline, exactly as `generateFlightTimeline` with its
default configuration values as optional arguments. -/
def generateFlightTimeline (origin destination : Airport) (departureTime : ℝ)
    (numPoints : ℕ := 150) (cruisingSpeed : ℝ := 850)
    (cruisingAltitude : ℝ := 37000) : FlightTimeline :=
  let waypoints := generateWaypoints ⟨origin.lat, origin.lon⟩
    ⟨destination.lat, destination.lon⟩ numPoints
  let totalDistance := match waypoints.getLast? with
    | some w => w.distance
    | none => 0
  let totalDuration := totalDistance / cruisingSpeed * 60
  let points := waypoints.mapIdx
    (timelinePointAt waypoints.length departureTime totalDuration cruisingSpeed cruisingAltitude)
  { points := points
    origin := origin
    destination := destination
    totalDistance := totalDistance
    totalDuration := totalDuration
    sunEvents := detectSunEvents points
    statistics := calculateStatistics points }

/-! ## `src/utils/aircraft.ts` -/

/-- Which side of the aircraft faces the sun. -/
inductive AircraftSide where
  | LEFT
  | RIGHT
  | OVERHEAD
  | NONE
deriving DecidableEq

/-- Per-instant classification (the recommendation string is presentational
and omitted). -/
structure AircraftSunExposure where
  side : AircraftSide
  relativeBearing : ℝ
  sunAngle : ℝ
  intensity : ℝ

/-- Per-instant sun-exposure classification, exactly as
`calculateAircraftSunExposure` (side, relative bearing, angle, intensity). -/
def calculateAircraftSunExposure (aircraftHeading sunAzimuth sunAltitude : ℝ) :
    AircraftSunExposure :=
  let rb0 := sunAzimuth - aircraftHeading
  let rb1 := if rb0 > 180 then rb0 - 360 else rb0
  let relativeBearing := if rb1 < -180 then rb1 + 360 else rb1
  let directness := |(|relativeBearing| - 90)| / 90
  let altitudeFactor := Real.sin (toRadians sunAltitude)
  let intensity := if sunAltitude > 0 then (1 - directness) * altitudeFactor else 0
  let side :=
    if sunAltitude < -6 then AircraftSide.NONE
    else if sunAltitude ≥ -6 ∧ sunAltitude < 0 then AircraftSide.NONE
    else if sunAltitude > 70 then AircraftSide.OVERHEAD
    else if relativeBearing ≥ -30 ∧ relativeBearing ≤ 30 then AircraftSide.NONE
    else if relativeBearing ≥ 150 ∨ relativeBearing ≤ -150 then AircraftSide.NONE
    else if relativeBearing > 0 then AircraftSide.RIGHT
    else AircraftSide.LEFT
  { side := side
    relativeBearing := relativeBearing
    sunAngle := |relativeBearing|
    intensity := intensity }

/-- Per-side minute totals (the recommendation and breakdown strings are
presentational and omitted). -/
structure FlightSunAnalysis where
  leftSideMinutes : ℝ
  rightSideMinutes : ℝ
  overheadMinutes : ℝ
  noSunMinutes : ℝ

/-- Loop body of `analyzeFlightSunExposure`: classify one point and add the
uniform per-point slice to the matching accumulator.  `point.sunAzimuth || 0`
is the identity on real numbers (it replaces 0 by 0); `point.sunAltitude ||
-90` replaces an exactly-zero altitude by -90. -/
def analyzeStep (minutePerPoint : ℝ) (acc : ℝ × ℝ × ℝ × ℝ) (point : TimelinePoint) :
    ℝ × ℝ × ℝ × ℝ :=
  let exposure := calculateAircraftSunExposure point.heading point.sunAzimuth
    (if point.sunAltitude = 0 then -90 else point.sunAltitude)
  match exposure.side with
  | AircraftSide.LEFT => (acc.1 + minutePerPoint, acc.2.1, acc.2.2.1, acc.2.2.2)
  | AircraftSide.RIGHT => (acc.1, acc.2.1 + minutePerPoint, acc.2.2.1, acc.2.2.2)
  | AircraftSide.OVERHEAD => (acc.1, acc.2.1, acc.2.2.1 + minutePerPoint, acc.2.2.2)
  | AircraftSide.NONE => (acc.1, acc.2.1, acc.2.2.1, acc.2.2.2 + minutePerPoint)

/-- Whole-flight sun-exposure totals, exactly as `analyzeFlightSunExposure`. -/
def analyzeFlightSunExposure (timeline : FlightTimeline) : FlightSunAnalysis :=
  let minutePerPoint := timeline.totalDuration / (timeline.points.length : ℝ)
  let acc := timeline.points.foldl (analyzeStep minutePerPoint) (0, 0, 0, 0)
  { leftSideMinutes := acc.1
    rightSideMinutes := acc.2.1
    overheadMinutes := acc.2.2.1
    noSunMinutes := acc.2.2.2 }

/-! ## `src/utils/daylight.ts` -/

/-- Civil twilight solar altitude (`TwilightType.CIVIL`). -/
def CIVIL_TWILIGHT_ALTITUDE : ℝ := -6

/-- Complete daylight information for a location and date. -/
structure DaylightInfo where
  sunrise : Option ℝ
  sunset : Option ℝ
  solarNoon : ℝ
  solarMidnight : ℝ
  civilTwilightStart : Option ℝ
  civilTwilightEnd : Option ℝ
  dayLength : ℝ
  nightLength : ℝ
  isAlwaysDay : Bool
  isAlwaysNight : Bool

/-- Solar noon instant, exactly as `calculateSolarNoon` (longitude estimate
corrected by the equation of time, written into the date with the in-place
UTC field setters, hours from `Math.floor` and minutes truncated). -/
def calculateSolarNoon (lat lon : ℝ) (date : ℝ) : ℝ :=
  let jd := getJulianDay date
  let T := getJulianCentury jd
  let solarNoonApprox := 12 - lon / 15
  let M := jsMod (357.52911 + T * (35999.05029 - T * 0.0001537)) 360
  let eot := 229.18 * (0.000075 + 0.001868 * cosDeg M - 0.032077 * sinDeg M
    - 0.014615 * cosDeg (2 * M) - 0.040849 * sinDeg (2 * M))
  let solarNoonCorrected := solarNoonApprox + eot / 60
  let d1 := setUTCHours date (⌊solarNoonCorrected⌋ : ℝ)
  let d2 := setUTCMinutes d1 (jsMod solarNoonCorrected 1 * 60)
  let d3 := setUTCSeconds d2 0
  setUTCMilliseconds d3 0

/-- Solar midnight: 12 hours after solar noon, as `calculateSolarMidnight`. -/
def calculateSolarMidnight (lat lon : ℝ) (date : ℝ) : ℝ :=
  calculateSolarNoon lat lon date + 12 * 3600 * 1000

/-- Search direction of `findSunEvent`. -/
inductive SunDirection where
  | rise
  | set
deriving DecidableEq

/-- The binary-search loop of `findSunEvent`, with the remaining iteration
count made an explicit fuel argument (the source runs `MAX_ITERATIONS = 20`
iterations, breaking early once the window is narrower than
`PRECISION_MS = 10000`), returning the current `high` endpoint. -/
def bisectSunEvent (lat lon targetAltitude : ℝ) (direction : SunDirection) :
    ℕ → ℝ → ℝ → ℝ
  | 0, _, high => high
  | n + 1, low, high =>
    if high - low < 10000 then high
    else
      let mid := (low + high) / 2
      let sunPos := calculateSunPosition lat lon mid
      match direction with
      | SunDirection.rise =>
        if sunPos.altitude < targetAltitude then
          bisectSunEvent lat lon targetAltitude SunDirection.rise n mid high
        else
          bisectSunEvent lat lon targetAltitude SunDirection.rise n low mid
      | SunDirection.set =>
        if sunPos.altitude > targetAltitude then
          bisectSunEvent lat lon targetAltitude SunDirection.set n mid high
        else
          bisectSunEvent lat lon targetAltitude SunDirection.set n low mid

/-- Crossing-time search, exactly as `findSunEvent`: window `[00:00, solar
noon]` for a rise event, `[solar noon, 23:59:59.999]` for a set event, 20
bisection iterations with the 10-second early stop, always returning the
final upper endpoint (the `Date | null` signature notwithstanding). -/
def findSunEvent (lat lon : ℝ) (date solarNoon targetAltitude : ℝ)
    (direction : SunDirection) : Option ℝ :=
  let low := match direction with
    | SunDirection.rise => setUTCHours4 date 0 0 0 0
    | SunDirection.set => solarNoon
  let high := match direction with
    | SunDirection.rise => solarNoon
    | SunDirection.set => setUTCHours4 date 23 59 59 999
  some (bisectSunEvent lat lon targetAltitude direction 20 low high)

/-- Complete daylight information, exactly as `calculateDaylightInfo`. -/
def calculateDaylightInfo (lat lon : ℝ) (date : ℝ) : DaylightInfo :=
  let solarNoon := calculateSolarNoon lat lon date
  let solarMidnight := calculateSolarMidnight lat lon date
  let noonSun := calculateSunPosition lat lon solarNoon
  let midnightSun := calculateSunPosition lat lon solarMidnight
  let isAlwaysDay := decide (midnightSun.altitude > SUNRISE_SUNSET_ALTITUDE)
  let isAlwaysNight := decide (noonSun.altitude < SUNRISE_SUNSET_ALTITUDE)
  let sunrise := if isAlwaysDay = false ∧ isAlwaysNight = false then
    findSunEvent lat lon date solarNoon SUNRISE_SUNSET_ALTITUDE SunDirection.rise else none
  let sunset := if isAlwaysDay = false ∧ isAlwaysNight = false then
    findSunEvent lat lon date solarNoon SUNRISE_SUNSET_ALTITUDE SunDirection.set else none
  let civilTwilightStart := if isAlwaysDay = false ∧ isAlwaysNight = false then
    findSunEvent lat lon date solarNoon CIVIL_TWILIGHT_ALTITUDE SunDirection.rise else none
  let civilTwilightEnd := if isAlwaysDay = false ∧ isAlwaysNight = false then
    findSunEvent lat lon date solarNoon CIVIL_TWILIGHT_ALTITUDE SunDirection.set else none
  let dayLength : ℝ := if isAlwaysDay then 24
    else if isAlwaysNight then 0
    else match sunrise, sunset with
      | some r, some s => (s - r) / 3600000
      | _, _ => 0
  { sunrise := sunrise
    sunset := sunset
    solarNoon := solarNoon
    solarMidnight := solarMidnight
    civilTwilightStart := civilTwilightStart
    civilTwilightEnd := civilTwilightEnd
    dayLength := dayLength
    nightLength := 24 - dayLength
    isAlwaysDay := isAlwaysDay
    isAlwaysNight := isAlwaysNight }

/-! ## General lemmas about the JavaScript-semantics prelude -/

lemma jsMod_eq_fract_mul (x y : ℝ) (hx : 0 ≤ x) (hy : 0 < y) :
    jsMod x y = y * Int.fract (x / y) := by
  unfold jsMod jsTrunc
  rw [if_pos (div_nonneg hx hy.le)]
  unfold Int.fract
  field_simp

lemma jsMod_nonneg (x y : ℝ) (hx : 0 ≤ x) (hy : 0 < y) : 0 ≤ jsMod x y := by
  rw [jsMod_eq_fract_mul x y hx hy]
  exact mul_nonneg hy.le (Int.fract_nonneg _)

lemma jsMod_lt (x y : ℝ) (hx : 0 ≤ x) (hy : 0 < y) : jsMod x y < y := by
  rw [jsMod_eq_fract_mul x y hx hy]
  calc y * Int.fract (x / y) < y * 1 := by
        exact mul_lt_mul_of_pos_left (Int.fract_lt_one _) hy
    _ = y := mul_one y

lemma toRadians_toDegrees (x : ℝ) : toRadians (toDegrees x) = x := by
  unfold toRadians toDegrees
  field_simp

lemma toDegrees_nonneg {x : ℝ} (hx : 0 ≤ x) : 0 ≤ toDegrees x :=
  div_nonneg (mul_nonneg hx (by norm_num)) pi_pos.le

lemma toDegrees_le_of_le {x c : ℝ} (hx : x ≤ c * π) : toDegrees x ≤ c * 180 := by
  unfold toDegrees
  rw [div_le_iff pi_pos]
  nlinarith [pi_pos]

lemma toDegrees_ge_of_ge {x c : ℝ} (hx : c * π ≤ x) : c * 180 ≤ toDegrees x := by
  unfold toDegrees
  rw [le_div_iff pi_pos]
  nlinarith [pi_pos]

/-! ## Refraction correction bounds

For any geometric altitude in `[-90, 90]` the piecewise refraction correction
is nonnegative and never lifts the refracted altitude above `90°`. -/

lemma tanDeg_lower_small {A : ℝ} (h1 : 5 < A) (h2 : A ≤ 85) : 0.087 < tanDeg A := by
  have hπ1 : 3.141592 < π := pi_gt_d6
  have hπ2 : π < 3.141593 := pi_lt_d6
  unfold tanDeg toRadians
  have hx1 : 0.087 < A * π / 180 := by nlinarith
  have hx2 : A * π / 180 < π / 2 := by nlinarith
  have := lt_tan (by linarith : 0 < A * π / 180) hx2
  linarith

set_option maxHeartbeats 1000000 in
lemma getRefractionCorrection_bounds (A : ℝ) (h1 : -90 ≤ A) (h2 : A ≤ 90) :
    0 ≤ getRefractionCorrection A ∧ A + getRefractionCorrection A ≤ 90 := by
  have hπ1 : 3.141592 < π := pi_gt_d6
  have hπ2 : π < 3.141593 := pi_lt_d6
  unfold getRefractionCorrection
  split_ifs with hA85 hA5 hA0575
  · exact ⟨le_refl 0, by linarith⟩
  · -- 5 < A ≤ 85, rational-in-tan branch
    push_neg at hA85
    set t := tanDeg A with htdef
    have ht : 0.087 < t := tanDeg_lower_small hA5 hA85
    have ht0 : 0 < t := by linarith
    have ht5 : 0 < t ^ 5 := by positivity
    have key : 0 ≤ 58.1 * t ^ 4 - 0.07 * t ^ 2 + 0.000086 := by
      nlinarith [sq_nonneg (t ^ 2 - 0.000603), sq_nonneg t]
    have heq : 58.1 / t - 0.07 / t ^ 3 + 0.000086 / t ^ 5
        = (58.1 * t ^ 4 - 0.07 * t ^ 2 + 0.000086) / t ^ 5 := by
      field_simp
      ring
    have hnonneg : 0 ≤ (58.1 / t - 0.07 / t ^ 3 + 0.000086 / t ^ 5) / 3600 := by
      rw [heq]
      positivity
    refine ⟨hnonneg, ?_⟩
    have hb1 : 58.1 / t ≤ 668 := by
      rw [div_le_iff ht0]
      nlinarith
    have hb2 : 0.000086 / t ^ 5 ≤ 18 := by
      rw [div_le_iff ht5]
      nlinarith [pow_le_pow_left (by norm_num : (0:ℝ) ≤ 0.087) ht.le 5]
    have hb3 : 0 ≤ 0.07 / t ^ 3 := by positivity
    nlinarith
  · -- -0.575 < A ≤ 5, quartic branch
    push_neg at hA5
    have hup : 0 ≤ 5 - A := by linarith
    have hlo : 0 ≤ A + 0.575 := by linarith
    have key : 0 ≤ 1735 + A * (-518.2 + A * (103.4 + A * (-12.79 + A * 0.711))) := by
      nlinarith [mul_nonneg hup hlo, mul_nonneg (mul_nonneg hup hup) hlo,
        mul_nonneg (mul_nonneg hup hlo) hlo, mul_nonneg (mul_nonneg hup hup) hup,
        mul_nonneg (mul_nonneg hlo hlo) hlo, sq_nonneg (A - 5), sq_nonneg (A + 0.575)]
    refine ⟨by positivity, ?_⟩
    have hsq : A ^ 2 ≤ 25 := by nlinarith
    have hquart : A ^ 4 ≤ 625 := by nlinarith [sq_nonneg (A ^ 2)]
    have hcube : -12.79 * A ^ 3 ≤ 7.355 * A ^ 2 := by
      nlinarith [mul_nonneg (sq_nonneg A) hlo]
    have hpoly : 1735 + A * (-518.2 + A * (103.4 + A * (-12.79 + A * 0.711))) ≤ 5300 := by
      nlinarith
    nlinarith
  · -- A ≤ -0.575, below-horizon branch
    push_neg at hA85 hA5 hA0575
    by_cases hA90 : A = -90
    · subst hA90
      have hrad : toRadians (-90) = -(π / 2) := by
        unfold toRadians
        ring
      have htan : tanDeg (-90) = 0 := by
        unfold tanDeg
        rw [hrad, Real.tan_neg, Real.tan_pi_div_two, neg_zero]
      rw [htan]
      norm_num
    · have hAgt : -90 < A := lt_of_le_of_ne h1 (Ne.symm hA90)
      have hx1 : -(π / 2) < toRadians A := by
        unfold toRadians
        nlinarith [mul_pos (by linarith : (0:ℝ) < A + 90) pi_pos]
      have hx2 : toRadians A < -0.01 := by
        unfold toRadians
        nlinarith [mul_nonneg (by linarith : (0:ℝ) ≤ -A - 0.575) pi_pos.le]
      have hpihalf : (-0.01 : ℝ) < π / 2 := by nlinarith
      have hmono : Real.tan (toRadians A) < Real.tan (-0.01) :=
        Real.tan_lt_tan_of_lt_of_lt_pi_div_two hx1 hpihalf hx2
      have htan001 : Real.tan (-0.01) < -0.01 := by
        rw [Real.tan_neg]
        have := lt_tan (by norm_num : (0:ℝ) < 0.01) (by nlinarith)
        linarith
      have ht : tanDeg A < -0.01 := by
        unfold tanDeg
        calc Real.tan (toRadians A) < Real.tan (-0.01) := hmono
          _ < -0.01 := htan001
      have htne : 0 < -tanDeg A := by linarith
      have hrw : -20.774 / tanDeg A = 20.774 / (-tanDeg A) := by
        rw [div_neg]
        ring
      have hpos : 0 ≤ -20.774 / tanDeg A / 3600 := by
        rw [hrw]
        positivity
      refine ⟨hpos, ?_⟩
      have hb : 20.774 / (-tanDeg A) ≤ 2078 := by
        rw [div_le_iff htne]
        nlinarith
      have : -20.774 / tanDeg A / 3600 ≤ 0.578 := by
        rw [hrw]
        linarith
      linarith

/-- C1.  For every valid latitude, longitude and instant, the `SolarPosition`
returned by `calculateSunPosition` has azimuth in `[0, 360)`, refraction-
corrected altitude in `[-90, 90]`, and zenith exactly `90 -` altitude. -/
theorem sunPosition_ranges (lat lon date : ℝ)
    (hlat1 : -90 ≤ lat) (hlat2 : lat ≤ 90) (hlon1 : -180 ≤ lon) (hlon2 : lon ≤ 180) :
    (0 ≤ (calculateSunPosition lat lon date).azimuth ∧
      (calculateSunPosition lat lon date).azimuth < 360) ∧
    (-90 ≤ (calculateSunPosition lat lon date).altitude ∧
      (calculateSunPosition lat lon date).altitude ≤ 90) ∧
    (calculateSunPosition lat lon date).zenith
      = 90 - (calculateSunPosition lat lon date).altitude := by
  simp only [calculateSunPosition]
  set jd := getJulianDay date
  set coords := getSolarCoordinates jd
  set T := getJulianCentury jd
  set gmst := jsMod (280.46061837 + 360.98564736629 * (jd - 2451545.0)
    + T * T * (0.000387933 - T / 38710000)) 360
  set lst := jsMod (gmst + lon + 360) 360
  set hourAngle := lst - coords.rightAscension * 15
  set sinAlt := Real.sin (toRadians lat) * Real.sin (toRadians coords.declination)
    + Real.cos (toRadians lat) * Real.cos (toRadians coords.declination)
      * Real.cos (toRadians hourAngle) with hsinAlt
  set altitude := toDegrees (arcsin sinAlt) with halt
  set cosAz := (Real.sin (toRadians coords.declination) - Real.sin (toRadians lat) * sinAlt)
    / (Real.cos (toRadians lat) * Real.cos (arcsin sinAlt)) with hcosAz
  set azimuth0 := toDegrees (arccos (max (-1) (min 1 cosAz))) with haz0
  have haz0_mem : 0 ≤ azimuth0 ∧ azimuth0 ≤ 180 := by
    constructor
    · exact toDegrees_nonneg (arccos_nonneg _)
    · have := arccos_le_pi (max (-1) (min 1 cosAz))
      have h := toDegrees_le_of_le (c := 1) (x := arccos (max (-1) (min 1 cosAz)))
        (by linarith)
      linarith
  have halt_mem : -90 ≤ altitude ∧ altitude ≤ 90 := by
    constructor
    · have h1 := neg_pi_div_two_le_arcsin sinAlt
      have h2 := toDegrees_ge_of_ge (c := -(1/2)) (x := arcsin sinAlt) (by linarith)
      linarith
    · have h1 := arcsin_le_pi_div_two sinAlt
      have h2 := toDegrees_le_of_le (c := 1/2) (x := arcsin sinAlt) (by linarith)
      linarith
  have hrefr := getRefractionCorrection_bounds altitude halt_mem.1 halt_mem.2
  set azimuth1 := if Real.sin (toRadians hourAngle) > 0 then 360 - azimuth0 else azimuth0
    with haz1
  have haz1_mem : 0 ≤ azimuth1 ∧ azimuth1 ≤ 360 := by
    rw [haz1]
    split_ifs
    · constructor <;> linarith [haz0_mem.1, haz0_mem.2]
    · constructor <;> linarith [haz0_mem.1, haz0_mem.2]
  refine ⟨⟨?_, ?_⟩, ⟨?_, ?_⟩, ?_⟩
  · exact jsMod_nonneg _ _ (by linarith [haz1_mem.1]) (by norm_num)
  · exact jsMod_lt _ _ (by linarith [haz1_mem.1]) (by norm_num)
  · linarith [hrefr.1, halt_mem.1]
  · linarith [hrefr.2]
  · ring

/-- Witness for C1 at the concrete valid input `(0, 0)` at the epoch. -/
theorem sunPosition_ranges_witness :
    (0 ≤ (calculateSunPosition 0 0 0).azimuth ∧ (calculateSunPosition 0 0 0).azimuth < 360) ∧
    (-90 ≤ (calculateSunPosition 0 0 0).altitude ∧ (calculateSunPosition 0 0 0).altitude ≤ 90) ∧
    (calculateSunPosition 0 0 0).zenith = 90 - (calculateSunPosition 0 0 0).altitude :=
  sunPosition_ranges 0 0 0 (by norm_num) (by norm_num) (by norm_num) (by norm_num)

/-! ## C5: range of the normalized relative bearing -/

/-- C5 counterexample.  At heading `180°` and sun azimuth `0°` (both inside
`[0, 360)`) the normalized relative bearing is exactly `-180`, which is not in
the half-open interval `(-180, 180]` asserted by the claim. -/
theorem relativeBearing_not_Ioc :
    (calculateAircraftSunExposure 180 0 10).relativeBearing = -180 ∧
    (calculateAircraftSunExposure 180 0 10).relativeBearing ∉ Set.Ioc (-180 : ℝ) 180 := by
  have h : (calculateAircraftSunExposure 180 0 10).relativeBearing = -180 := by
    norm_num [calculateAircraftSunExposure]
  refine ⟨h, ?_⟩
  rw [h]
  simp [Set.mem_Ioc]

/-- C5 as amended: for every heading and sun azimuth in `[0, 360)`, the
normalized relative bearing lies in the closed interval `[-180, 180]` (the
value `-180` is attained, so the interval cannot be half-open). -/
theorem relativeBearing_range (heading sunAzimuth sunAltitude : ℝ)
    (hh0 : 0 ≤ heading) (hh1 : heading < 360)
    (ha0 : 0 ≤ sunAzimuth) (ha1 : sunAzimuth < 360) :
    -180 ≤ (calculateAircraftSunExposure heading sunAzimuth sunAltitude).relativeBearing ∧
    (calculateAircraftSunExposure heading sunAzimuth sunAltitude).relativeBearing ≤ 180 := by
  simp only [calculateAircraftSunExposure]
  split_ifs <;> constructor <;> linarith

/-- Witness for the amended C5 at the spec's scenario
`exposure(heading=90, sunAzimuth=180, sunAltitude=45)`. -/
theorem relativeBearing_range_witness :
    -180 ≤ (calculateAircraftSunExposure 90 180 45).relativeBearing ∧
    (calculateAircraftSunExposure 90 180 45).relativeBearing ≤ 180 :=
  relativeBearing_range 90 180 45 (by norm_num) (by norm_num) (by norm_num) (by norm_num)

/-! ## C8: degenerate great-circle interpolation -/

/-- C8.  Whenever the angular distance between the two input points is below
the `0.00001` radian guard, `intermediatePoint` returns the origin point
directly, for every fraction in `[0, 1]` (indeed for every fraction), so the
`sin δ` denominator of the slerp formula is never used there. -/
theorem intermediatePoint_degenerate (p1 p2 : GeoPoint) (f : ℝ)
    (hf0 : 0 ≤ f) (hf1 : f ≤ 1)
    (hdelta : calculateDistance p1.lat p1.lon p2.lat p2.lon / EARTH_RADIUS_KM < 0.00001) :
    intermediatePoint p1 p2 f = ⟨p1.lat, p1.lon⟩ := by
  simp only [intermediatePoint]
  rw [if_pos hdelta]

lemma atan2_zero_one : atan2 0 1 = 0 := by
  unfold atan2
  rw [if_pos one_pos]
  norm_num

lemma calculateDistance_self (lat lon : ℝ) : calculateDistance lat lon lat lon = 0 := by
  unfold calculateDistance toRadians
  simp only [sub_self, zero_mul, zero_div, Real.sin_zero, mul_zero, zero_add, add_zero,
    Real.sqrt_zero, sub_zero, Real.sqrt_one]
  rw [atan2_zero_one]
  norm_num

/-- Witness for C8 at coincident points. -/
theorem intermediatePoint_degenerate_witness :
    intermediatePoint ⟨10, 20⟩ ⟨10, 20⟩ (1/2) = ⟨10, 20⟩ := by
  have h := intermediatePoint_degenerate ⟨10, 20⟩ ⟨10, 20⟩ (1/2)
    (by norm_num) (by norm_num)
    (by rw [calculateDistance_self]; norm_num [EARTH_RADIUS_KM])
  simpa using h

/-! ## C10: the date-line pass is a pure longitude correction -/

lemma hacAux_forall2 (ws : List Waypoint) : ∀ prevLon : ℝ,
    List.Forall₂ (fun w w' => w'.lat = w.lat ∧ w'.distance = w.distance ∧
      w'.bearing = w.bearing ∧ ∃ k : ℤ, w'.lon = w.lon + 360 * (k : ℝ)) ws (hacAux prevLon ws) := by
  induction ws with
  | nil => intro prevLon; exact List.Forall₂.nil
  | cons w ws ih =>
    intro prevLon
    simp only [hacAux]
    refine List.Forall₂.cons ⟨rfl, rfl, rfl, ?_⟩ (ih _)
    split_ifs
    · exact ⟨-1, by push_cast; ring⟩
    · exact ⟨1, by push_cast; ring⟩
    · exact ⟨0, by push_cast; ring⟩

lemma hac_forall2 (ws : List Waypoint) :
    List.Forall₂ (fun w w' => w'.lat = w.lat ∧ w'.distance = w.distance ∧
      w'.bearing = w.bearing ∧ ∃ k : ℤ, w'.lon = w.lon + 360 * (k : ℝ))
      ws (handleAntimeridianCrossing ws) := by
  cases ws with
  | nil => exact List.Forall₂.nil
  | cons w ws =>
    exact List.Forall₂.cons ⟨rfl, rfl, rfl, ⟨0, by push_cast; ring⟩⟩ (hacAux_forall2 ws w.lon)

/-- C10.  `handleAntimeridianCrossing` preserves the list length and, for
every waypoint, the latitude, cumulative distance and bearing; each output
longitude differs from the input longitude by an integer multiple of 360°. -/
theorem handleAntimeridianCrossing_frame (ws : List Waypoint) :
    (handleAntimeridianCrossing ws).length = ws.length ∧
    List.Forall₂ (fun w w' => w'.lat = w.lat ∧ w'.distance = w.distance ∧
      w'.bearing = w.bearing ∧ ∃ k : ℤ, w'.lon = w.lon + 360 * (k : ℝ))
      ws (handleAntimeridianCrossing ws) :=
  ⟨(hac_forall2 ws).length_eq.symm, hac_forall2 ws⟩

/-! ## C4: the per-side minute totals sum to the flight duration -/

lemma analyzeStep_sum (mpp : ℝ) (acc : ℝ × ℝ × ℝ × ℝ) (p : TimelinePoint) :
    (analyzeStep mpp acc p).1 + (analyzeStep mpp acc p).2.1 + (analyzeStep mpp acc p).2.2.1
      + (analyzeStep mpp acc p).2.2.2
    = acc.1 + acc.2.1 + acc.2.2.1 + acc.2.2.2 + mpp := by
  unfold analyzeStep
  cases h : (calculateAircraftSunExposure p.heading p.sunAzimuth
      (if p.sunAltitude = 0 then -90 else p.sunAltitude)).side <;>
    simp [h] <;> ring

lemma analyzeFold_sum (mpp : ℝ) (pts : List TimelinePoint) :
    ∀ acc : ℝ × ℝ × ℝ × ℝ,
    (pts.foldl (analyzeStep mpp) acc).1 + (pts.foldl (analyzeStep mpp) acc).2.1
      + (pts.foldl (analyzeStep mpp) acc).2.2.1 + (pts.foldl (analyzeStep mpp) acc).2.2.2
    = acc.1 + acc.2.1 + acc.2.2.1 + acc.2.2.2 + pts.length * mpp := by
  induction pts with
  | nil => intro acc; simp
  | cons p pts ih =>
    intro acc
    simp only [List.foldl_cons, List.length_cons]
    rw [ih (analyzeStep mpp acc p), analyzeStep_sum]
    push_cast
    ring

/-- C4.  For every timeline with at least one point,
`analyzeFlightSunExposure` classifies each point into exactly one side and
adds the uniform slice `totalDuration / pointCount` for it, so the four
per-side minute totals sum exactly to the timeline's `totalDuration`. -/
theorem analyzeFlight_total (tl : FlightTimeline) (h : tl.points ≠ []) :
    (analyzeFlightSunExposure tl).leftSideMinutes
      + (analyzeFlightSunExposure tl).rightSideMinutes
      + (analyzeFlightSunExposure tl).overheadMinutes
      + (analyzeFlightSunExposure tl).noSunMinutes
    = tl.totalDuration := by
  have hlen : (tl.points.length : ℝ) ≠ 0 :=
    Nat.cast_ne_zero.mpr (List.length_pos.mpr h).ne'
  have hfold := analyzeFold_sum (tl.totalDuration / (tl.points.length : ℝ))
    tl.points (0, 0, 0, 0)
  simp only [analyzeFlightSunExposure]
  rw [hfold]
  field_simp

/-- A fixed single-point timeline used as the C4 witness input. -/
def sampleTimeline : FlightTimeline :=
  { points := [⟨0, 0, 0, 0, 0, 0, 0, 0, false, 0, 0, 0⟩]
    origin := ⟨0, 0⟩
    destination := ⟨0, 0⟩
    totalDistance := 0
    totalDuration := 5
    sunEvents := []
    statistics := ⟨0, 0, 0, 0, 0, 0⟩ }

/-- Witness for C4 on a concrete one-point timeline of duration 5 minutes. -/
theorem analyzeFlight_total_witness :
    (analyzeFlightSunExposure sampleTimeline).leftSideMinutes
      + (analyzeFlightSunExposure sampleTimeline).rightSideMinutes
      + (analyzeFlightSunExposure sampleTimeline).overheadMinutes
      + (analyzeFlightSunExposure sampleTimeline).noSunMinutes
    = 5 :=
  analyzeFlight_total sampleTimeline (by simp [sampleTimeline])

/-! ## C7: the sunrise/sunset bisection contract -/

lemma bisectSunEvent_mem (lat lon target : ℝ) (dir : SunDirection) :
    ∀ (n : ℕ) (lo hi : ℝ), lo ≤ hi →
      lo ≤ bisectSunEvent lat lon target dir n lo hi ∧
      bisectSunEvent lat lon target dir n lo hi ≤ hi := by
  intro n
  induction n with
  | zero => intro lo hi h; exact ⟨h, le_refl _⟩
  | succ n ih =>
    intro lo hi h
    have hmid1 : lo ≤ (lo + hi) / 2 := by linarith
    have hmid2 : (lo + hi) / 2 ≤ hi := by linarith
    cases dir with
    | rise =>
      simp only [bisectSunEvent]
      split_ifs
      · exact ⟨h, le_refl _⟩
      · have hrec := ih ((lo + hi) / 2) hi hmid2
        exact ⟨le_trans hmid1 hrec.1, hrec.2⟩
      · have hrec := ih lo ((lo + hi) / 2) hmid1
        exact ⟨hrec.1, le_trans hrec.2 hmid2⟩
    | set =>
      simp only [bisectSunEvent]
      split_ifs
      · exact ⟨h, le_refl _⟩
      · have hrec := ih ((lo + hi) / 2) hi hmid2
        exact ⟨le_trans hmid1 hrec.1, hrec.2⟩
      · have hrec := ih lo ((lo + hi) / 2) hmid1
        exact ⟨hrec.1, le_trans hrec.2 hmid2⟩

/-- C7.  `findSunEvent` is bisection against `SolarPosition.altitude` on the
window from UTC midnight to solar noon (rise) or solar noon to the end of the
UTC day (set); it runs the fixed fuel of 20 iterations, stops as soon as the
window is narrower than 10 seconds, and always returns (`some` of) its
current upper estimate, which stays inside the initial window. -/
theorem findSunEvent_contract (lat lon date solarNoon targetAltitude : ℝ)
    (direction : SunDirection) :
    (findSunEvent lat lon date solarNoon targetAltitude SunDirection.rise
        = some (bisectSunEvent lat lon targetAltitude SunDirection.rise 20
            (setUTCHours4 date 0 0 0 0) solarNoon)) ∧
    (findSunEvent lat lon date solarNoon targetAltitude SunDirection.set
        = some (bisectSunEvent lat lon targetAltitude SunDirection.set 20
            solarNoon (setUTCHours4 date 23 59 59 999))) ∧
    (∀ (n : ℕ) (lo hi : ℝ), hi - lo < 10000 →
        bisectSunEvent lat lon targetAltitude direction (n + 1) lo hi = hi) ∧
    (∃ r, findSunEvent lat lon date solarNoon targetAltitude direction = some r ∧
      (direction = SunDirection.rise → setUTCHours4 date 0 0 0 0 ≤ solarNoon →
          setUTCHours4 date 0 0 0 0 ≤ r ∧ r ≤ solarNoon) ∧
      (direction = SunDirection.set → solarNoon ≤ setUTCHours4 date 23 59 59 999 →
          solarNoon ≤ r ∧ r ≤ setUTCHours4 date 23 59 59 999)) := by
  refine ⟨rfl, rfl, ?_, ?_⟩
  · intro n lo hi hnarrow
    cases direction <;> · simp only [bisectSunEvent]; rw [if_pos hnarrow]
  · cases direction with
    | rise =>
      refine ⟨_, rfl, ?_, ?_⟩
      · intro _ hwin
        exact bisectSunEvent_mem lat lon targetAltitude SunDirection.rise 20 _ _ hwin
      · intro hcontra
        exact SunDirection.noConfusion hcontra
    | set =>
      refine ⟨_, rfl, ?_, ?_⟩
      · intro hcontra
        exact SunDirection.noConfusion hcontra
      · intro _ hwin
        exact bisectSunEvent_mem lat lon targetAltitude SunDirection.set 20 _ _ hwin

/-- Witness for C7: concrete early stop and concrete in-window result. -/
theorem findSunEvent_contract_witness :
    bisectSunEvent 0 0 (-0.833) SunDirection.rise 1 0 5000 = 5000 ∧
    (findSunEvent 0 0 0 43200000 (-0.833) SunDirection.rise).isSome = true ∧
    0 ≤ (findSunEvent 0 0 0 43200000 (-0.833) SunDirection.rise).getD 0 ∧
    (findSunEvent 0 0 0 43200000 (-0.833) SunDirection.rise).getD 0 ≤ 43200000 := by
  have h0 : setUTCHours4 (0 : ℝ) 0 0 0 0 = 0 := by
    norm_num [setUTCHours4, utcDayNumber, jsTrunc]
  obtain ⟨h1, h2, h3, r, hr, hrise, hset⟩ :=
    findSunEvent_contract 0 0 0 43200000 (-0.833) SunDirection.rise
  have hmem := hrise rfl (by rw [h0]; norm_num)
  rw [h0] at hmem
  refine ⟨h3 0 0 5000 (by norm_num), ?_, ?_, ?_⟩
  · rw [hr]; rfl
  · rw [hr]; exact hmem.1
  · rw [hr]; exact hmem.2

/-! ## Further lemmas about `atan2` -/

lemma arctan_le_self {t : ℝ} (ht : 0 ≤ t) : arctan t ≤ t := by
  rcases eq_or_lt_of_le ht with h | h
  · rw [← h, arctan_zero]
  · by_cases hlt : t < π / 2
    · by_contra hcon
      push_neg at hcon
      have h1 : Real.tan t < Real.tan (arctan t) :=
        Real.tan_lt_tan_of_lt_of_lt_pi_div_two (by linarith [pi_pos])
          (arctan_lt_pi_div_two t) hcon
      rw [tan_arctan] at h1
      have h2 := lt_tan h hlt
      linarith
    · push_neg at hlt
      linarith [arctan_lt_pi_div_two t]

lemma atan2_nonneg_le_pi {y x : ℝ} (hy : 0 ≤ y) : 0 ≤ atan2 y x ∧ atan2 y x ≤ π := by
  have hπ := pi_pos
  unfold atan2
  rcases lt_trichotomy x 0 with hx | hx | hx
  · rw [if_neg (by linarith), if_pos hx, if_pos hy]
    have h0 : arctan (y / x) ≤ arctan 0 :=
      arctan_strictMono.monotone (div_nonpos_of_nonneg_of_nonpos hy hx.le)
    rw [arctan_zero] at h0
    exact ⟨by linarith [neg_pi_div_two_lt_arctan (y / x)], by linarith⟩
  · subst hx
    rw [if_neg (lt_irrefl 0), if_neg (lt_irrefl 0)]
    by_cases hy2 : 0 < y
    · rw [if_pos hy2]
      constructor <;> linarith
    · rw [if_neg hy2, if_neg (by linarith)]
      constructor <;> linarith
  · rw [if_pos hx]
    have h0 : arctan 0 ≤ arctan (y / x) :=
      arctan_strictMono.monotone (div_nonneg hy hx.le)
    rw [arctan_zero] at h0
    exact ⟨h0, by linarith [arctan_lt_pi_div_two (y / x)]⟩

lemma atan2_sin_cos {θ : ℝ} (h1 : -π < θ) (h2 : θ ≤ π) :
    atan2 (Real.sin θ) (Real.cos θ) = θ := by
  have hπ := pi_pos
  unfold atan2
  rcases lt_trichotomy (Real.cos θ) 0 with hc | hc | hc
  · rw [if_neg (by linarith), if_pos hc]
    by_cases hs : 0 ≤ Real.sin θ
    · rw [if_pos hs]
      have hθ1 : π / 2 < θ := by
        by_contra hcon
        push_neg at hcon
        by_cases hθ2 : -(π / 2) ≤ θ
        · have := Real.cos_nonneg_of_mem_Icc ⟨hθ2, hcon⟩
          linarith
        · push_neg at hθ2
          have hpos : 0 < Real.sin (-θ) :=
            Real.sin_pos_of_pos_of_lt_pi (by linarith) (by linarith)
          rw [Real.sin_neg] at hpos
          linarith
      have heq : Real.sin θ / Real.cos θ = Real.tan (θ - π) := by
        rw [Real.tan_periodic.sub_eq, Real.tan_eq_sin_div_cos]
      rw [heq, arctan_tan (by linarith) (by linarith)]
      ring
    · push_neg at hs
      rw [if_neg (by linarith)]
      have hθ1 : θ < -(π / 2) := by
        by_contra hcon
        push_neg at hcon
        by_cases hθ2 : θ ≤ π / 2
        · have := Real.cos_nonneg_of_mem_Icc ⟨hcon, hθ2⟩
          linarith
        · push_neg at hθ2
          have := Real.sin_nonneg_of_nonneg_of_le_pi (by linarith) h2
          linarith
      have heq : Real.sin θ / Real.cos θ = Real.tan (θ + π) := by
        rw [Real.tan_periodic, Real.tan_eq_sin_div_cos]
      rw [heq, arctan_tan (by linarith) (by linarith)]
      ring
  · rw [if_neg (by rw [hc]; exact lt_irrefl 0), if_neg (by rw [hc]; exact lt_irrefl 0)]
    obtain ⟨n, hn⟩ := Real.cos_eq_zero_iff.mp hc
    have hn1 : -1 ≤ n := by
      by_contra hcon
      push_neg at hcon
      have hle : n ≤ -2 := by omega
      have hle' : (n : ℝ) ≤ -2 := by exact_mod_cast hle
      have hmul : (2 * (n : ℝ) + 1) * π ≤ -3 * π :=
        mul_le_mul_of_nonneg_right (by linarith) pi_pos.le
      nlinarith
    have hn2 : n ≤ 0 := by
      by_contra hcon
      push_neg at hcon
      have hge : (1 : ℝ) ≤ (n : ℝ) := by exact_mod_cast hcon
      have hmul : 3 * π ≤ (2 * (n : ℝ) + 1) * π :=
        mul_le_mul_of_nonneg_right (by linarith) pi_pos.le
      nlinarith
    interval_cases n
    · rw [hn]
      push_cast
      have hval : (2 * (-1 : ℝ) + 1) * π / 2 = -(π / 2) := by ring
      rw [hval, Real.sin_neg, Real.sin_pi_div_two]
      rw [if_neg (by norm_num), if_pos (by norm_num)]
    · rw [hn]
      push_cast
      have hval : (2 * (0 : ℝ) + 1) * π / 2 = π / 2 := by ring
      rw [hval, Real.sin_pi_div_two]
      rw [if_pos (by norm_num)]
  · rw [if_pos hc]
    have hθa : -(π / 2) < θ := by
      by_contra hcon
      push_neg at hcon
      have hcN := Real.cos_nonpos_of_pi_div_two_le_of_le (x := -θ) (by linarith) (by linarith)
      rw [Real.cos_neg] at hcN
      linarith
    have hθb : θ < π / 2 := by
      by_contra hcon
      push_neg at hcon
      have := Real.cos_nonpos_of_pi_div_two_le_of_le (x := θ) hcon (by linarith)
      linarith
    rw [← Real.tan_eq_sin_div_cos, arctan_tan hθa hθb]

lemma atan2_scale {c y x : ℝ} (hc : 0 < c) : atan2 (c * y) (c * x) = atan2 y x := by
  unfold atan2
  rcases lt_trichotomy x 0 with hx | hx | hx
  · have hcx : ¬0 < c * x := by nlinarith
    have hcx2 : c * x < 0 := by nlinarith
    rw [if_neg hcx, if_neg (by nlinarith : ¬0 < x), if_pos hcx2, if_pos hx,
      mul_div_mul_left y x hc.ne']
    have hyiff : 0 ≤ c * y ↔ 0 ≤ y := by
      constructor
      · intro h; nlinarith
      · intro h; positivity
    by_cases hy : 0 ≤ y
    · rw [if_pos (hyiff.mpr hy), if_pos hy]
    · rw [if_neg (fun h => hy (hyiff.mp h)), if_neg hy]
  · subst hx
    rw [mul_zero]
    rw [if_neg (lt_irrefl 0), if_neg (lt_irrefl 0), if_neg (lt_irrefl 0),
      if_neg (lt_irrefl 0)]
    have h1 : (0 < c * y) ↔ (0 < y) := by
      constructor
      · intro h; nlinarith
      · intro h; positivity
    have h2 : (c * y < 0) ↔ (y < 0) := by
      constructor
      · intro h; nlinarith
      · intro h; nlinarith
    by_cases hy : 0 < y
    · rw [if_pos (h1.mpr hy), if_pos hy]
    · rw [if_neg (fun h => hy (h1.mp h)), if_neg hy]
      by_cases hy2 : y < 0
      · rw [if_pos (h2.mpr hy2), if_pos hy2]
      · rw [if_neg (fun h => hy2 (h2.mp h)), if_neg hy2]
  · have hcx : 0 < c * x := by positivity
    rw [if_pos hcx, if_pos hx, mul_div_mul_left y x hc.ne']

lemma toDegrees_toRadians (x : ℝ) : toDegrees (toRadians x) = x := by
  unfold toRadians toDegrees
  field_simp

lemma atan2_nonneg_args {y x : ℝ} (hy : 0 ≤ y) (hx : 0 ≤ x) :
    0 ≤ atan2 y x ∧ atan2 y x ≤ π / 2 := by
  have hπ := pi_pos
  unfold atan2
  rcases lt_or_eq_of_le hx with hx1 | hx1
  · rw [if_pos hx1]
    have h0 : arctan 0 ≤ arctan (y / x) := arctan_strictMono.monotone (div_nonneg hy hx1.le)
    rw [arctan_zero] at h0
    exact ⟨h0, (arctan_lt_pi_div_two (y / x)).le⟩
  · rw [← hx1]
    rw [if_neg (lt_irrefl 0), if_neg (lt_irrefl 0)]
    by_cases hy2 : 0 < y
    · rw [if_pos hy2]
      constructor <;> linarith
    · rw [if_neg hy2, if_neg (by linarith)]
      constructor <;> linarith

lemma calculateDistance_div_bounds (lat1 lon1 lat2 lon2 : ℝ) :
    0 ≤ calculateDistance lat1 lon1 lat2 lon2 / EARTH_RADIUS_KM ∧
    calculateDistance lat1 lon1 lat2 lon2 / EARTH_RADIUS_KM ≤ π := by
  simp only [calculateDistance, EARTH_RADIUS_KM]
  set A := Real.sin (toRadians (lat2 - lat1) / 2) * Real.sin (toRadians (lat2 - lat1) / 2)
    + Real.cos (toRadians lat1) * Real.cos (toRadians lat2)
      * Real.sin (toRadians (lon2 - lon1) / 2) * Real.sin (toRadians (lon2 - lon1) / 2)
    with hA
  set t := atan2 (Real.sqrt A) (Real.sqrt (1 - A)) with ht
  have h := atan2_nonneg_args (Real.sqrt_nonneg A) (Real.sqrt_nonneg (1 - A))
  rw [← ht] at h
  have heq : (6371 : ℝ) * (2 * t) / 6371 = 2 * t := by ring
  rw [heq]
  constructor
  · linarith [h.1]
  · linarith [h.2]

lemma calculateDistance_nonneg (lat1 lon1 lat2 lon2 : ℝ) :
    0 ≤ calculateDistance lat1 lon1 lat2 lon2 := by
  have h := (calculateDistance_div_bounds lat1 lon1 lat2 lon2).1
  have hR : (0:ℝ) < EARTH_RADIUS_KM := by norm_num [EARTH_RADIUS_KM]
  by_contra hcon
  push_neg at hcon
  have : calculateDistance lat1 lon1 lat2 lon2 / EARTH_RADIUS_KM < 0 := div_neg_of_neg_of_pos hcon hR
  linarith

lemma hacAux_map_distance (ws : List Waypoint) :
    ∀ prev, (hacAux prev ws).map (fun w => w.distance) = ws.map (fun w => w.distance) := by
  induction ws with
  | nil => intro prev; rfl
  | cons w ws ih =>
    intro prev
    simp only [hacAux, List.map_cons]
    rw [ih]

lemma hac_map_distance (ws : List Waypoint) :
    (handleAntimeridianCrossing ws).map (fun w => w.distance) = ws.map (fun w => w.distance) := by
  cases ws with
  | nil => rfl
  | cons w ws =>
    simp only [handleAntimeridianCrossing, List.map_cons]
    rw [hacAux_map_distance]

lemma intermediatePoint_zero (p1 p2 : GeoPoint)
    (h1 : -90 < p1.lat) (h2 : p1.lat < 90) (h3 : -180 < p1.lon) (h4 : p1.lon < 180)
    (hd1 : 0.00001 ≤ calculateDistance p1.lat p1.lon p2.lat p2.lon / EARTH_RADIUS_KM)
    (hd2 : calculateDistance p1.lat p1.lon p2.lat p2.lon / EARTH_RADIUS_KM < π) :
    intermediatePoint p1 p2 0 = ⟨p1.lat, p1.lon⟩ := by
  have hπ := pi_pos
  have hπ1 : 3.141592 < π := pi_gt_d6
  simp only [intermediatePoint]
  rw [if_neg (by linarith)]
  set δ := calculateDistance p1.lat p1.lon p2.lat p2.lon / EARTH_RADIUS_KM with hδdef
  have hsin : 0 < Real.sin δ := Real.sin_pos_of_pos_of_lt_pi (by linarith) hd2
  have ha : Real.sin ((1 - 0) * δ) / Real.sin δ = 1 := by
    rw [show (1 - (0:ℝ)) * δ = δ by ring]
    exact div_self hsin.ne'
  have hb : Real.sin (0 * δ) / Real.sin δ = 0 := by
    rw [zero_mul, Real.sin_zero, zero_div]
  rw [ha, hb]
  simp only [one_mul, zero_mul, add_zero]
  have hφmem : -(π/2) < toRadians p1.lat ∧ toRadians p1.lat < π/2 := by
    unfold toRadians
    constructor <;> nlinarith
  have hcosφ : 0 < Real.cos (toRadians p1.lat) :=
    Real.cos_pos_of_mem_Ioo ⟨hφmem.1, hφmem.2⟩
  have hxy : Real.cos (toRadians p1.lat) * Real.cos (toRadians p1.lon)
        * (Real.cos (toRadians p1.lat) * Real.cos (toRadians p1.lon))
      + Real.cos (toRadians p1.lat) * Real.sin (toRadians p1.lon)
        * (Real.cos (toRadians p1.lat) * Real.sin (toRadians p1.lon))
      = Real.cos (toRadians p1.lat) ^ 2 := by
    have h := Real.sin_sq_add_cos_sq (toRadians p1.lon)
    linear_combination (Real.cos (toRadians p1.lat)) ^ 2 * h
  rw [hxy, Real.sqrt_sq hcosφ.le]
  have hlat : atan2 (Real.sin (toRadians p1.lat)) (Real.cos (toRadians p1.lat))
      = toRadians p1.lat :=
    atan2_sin_cos (by linarith [hφmem.1]) (by linarith [hφmem.2])
  have hlonmem : -π < toRadians p1.lon ∧ toRadians p1.lon < π := by
    unfold toRadians
    constructor <;> nlinarith
  have hlon : atan2 (Real.cos (toRadians p1.lat) * Real.sin (toRadians p1.lon))
      (Real.cos (toRadians p1.lat) * Real.cos (toRadians p1.lon)) = toRadians p1.lon := by
    rw [atan2_scale hcosφ]
    exact atan2_sin_cos hlonmem.1 hlonmem.2.le
  rw [hlat, hlon, toDegrees_toRadians, toDegrees_toRadians]

lemma intermediatePoint_one (p1 p2 : GeoPoint)
    (h1 : -90 < p2.lat) (h2 : p2.lat < 90) (h3 : -180 < p2.lon) (h4 : p2.lon < 180)
    (hd1 : 0.00001 ≤ calculateDistance p1.lat p1.lon p2.lat p2.lon / EARTH_RADIUS_KM)
    (hd2 : calculateDistance p1.lat p1.lon p2.lat p2.lon / EARTH_RADIUS_KM < π) :
    intermediatePoint p1 p2 1 = ⟨p2.lat, p2.lon⟩ := by
  have hπ := pi_pos
  have hπ1 : 3.141592 < π := pi_gt_d6
  simp only [intermediatePoint]
  rw [if_neg (by linarith)]
  set δ := calculateDistance p1.lat p1.lon p2.lat p2.lon / EARTH_RADIUS_KM with hδdef
  have hsin : 0 < Real.sin δ := Real.sin_pos_of_pos_of_lt_pi (by linarith) hd2
  have ha : Real.sin ((1 - 1) * δ) / Real.sin δ = 0 := by
    rw [show (1 - (1:ℝ)) * δ = 0 by ring, Real.sin_zero, zero_div]
  have hb : Real.sin (1 * δ) / Real.sin δ = 1 := by
    rw [one_mul]
    exact div_self hsin.ne'
  rw [ha, hb]
  simp only [one_mul, zero_mul, zero_add]
  have hφmem : -(π/2) < toRadians p2.lat ∧ toRadians p2.lat < π/2 := by
    unfold toRadians
    constructor <;> nlinarith
  have hcosφ : 0 < Real.cos (toRadians p2.lat) :=
    Real.cos_pos_of_mem_Ioo ⟨hφmem.1, hφmem.2⟩
  have hxy : Real.cos (toRadians p2.lat) * Real.cos (toRadians p2.lon)
        * (Real.cos (toRadians p2.lat) * Real.cos (toRadians p2.lon))
      + Real.cos (toRadians p2.lat) * Real.sin (toRadians p2.lon)
        * (Real.cos (toRadians p2.lat) * Real.sin (toRadians p2.lon))
      = Real.cos (toRadians p2.lat) ^ 2 := by
    have h := Real.sin_sq_add_cos_sq (toRadians p2.lon)
    linear_combination (Real.cos (toRadians p2.lat)) ^ 2 * h
  rw [hxy, Real.sqrt_sq hcosφ.le]
  have hlat : atan2 (Real.sin (toRadians p2.lat)) (Real.cos (toRadians p2.lat))
      = toRadians p2.lat :=
    atan2_sin_cos (by linarith [hφmem.1]) (by linarith [hφmem.2])
  have hlonmem : -π < toRadians p2.lon ∧ toRadians p2.lon < π := by
    unfold toRadians
    constructor <;> nlinarith
  have hlon : atan2 (Real.cos (toRadians p2.lat) * Real.sin (toRadians p2.lon))
      (Real.cos (toRadians p2.lat) * Real.cos (toRadians p2.lon)) = toRadians p2.lon := by
    rw [atan2_scale hcosφ]
    exact atan2_sin_cos hlonmem.1 hlonmem.2.le
  rw [hlat, hlon, toDegrees_toRadians, toDegrees_toRadians]

/-! ## C2: endpoints and monotonicity of `generateWaypoints` -/

lemma smallDelta :
    calculateDistance 0 0 (1/10000) 0 / EARTH_RADIUS_KM < 0.00001 := by
  have hπ1 : 3.141592 < π := pi_gt_d6
  have hπ2 : π < 3.141593 := pi_lt_d6
  simp only [calculateDistance, EARTH_RADIUS_KM, toRadians]
  have e1 : ((1/10000 - 0 : ℝ) * π / 180) / 2 = π / 3600000 := by ring
  have e2 : ((0 - 0 : ℝ) * π / 180) / 2 = 0 := by ring
  rw [e1, e2, Real.sin_zero]
  simp only [mul_zero, add_zero]
  set x := π / 3600000 with hx
  have hx_pos : 0 < x := by rw [hx]; positivity
  have hx_small : x < 0.000001 := by rw [hx]; linarith
  have hsin_nonneg : 0 ≤ Real.sin x :=
    Real.sin_nonneg_of_nonneg_of_le_pi hx_pos.le (by rw [hx]; nlinarith)
  have hsin_lt : Real.sin x < 0.000001 := lt_trans (Real.sin_lt hx_pos) hx_small
  rw [Real.sqrt_mul_self hsin_nonneg]
  have hB : (0.81 : ℝ) ≤ 1 - Real.sin x * Real.sin x := by nlinarith
  have hsqB : (0.9 : ℝ) ≤ Real.sqrt (1 - Real.sin x * Real.sin x) := by
    have h09 : (0.9 : ℝ) = Real.sqrt 0.81 := by
      rw [show (0.81 : ℝ) = 0.9 ^ 2 by norm_num, Real.sqrt_sq (by norm_num)]
    rw [h09]
    exact Real.sqrt_le_sqrt hB
  have hsqB_pos : 0 < Real.sqrt (1 - Real.sin x * Real.sin x) := by linarith
  have hatan : atan2 (Real.sin x) (Real.sqrt (1 - Real.sin x * Real.sin x)) < 0.0000012 := by
    unfold atan2
    rw [if_pos hsqB_pos]
    have hdivnn : 0 ≤ Real.sin x / Real.sqrt (1 - Real.sin x * Real.sin x) :=
      div_nonneg hsin_nonneg hsqB_pos.le
    have hdiv2 : Real.sin x / Real.sqrt (1 - Real.sin x * Real.sin x) ≤ 0.00000112 := by
      rw [div_le_iff hsqB_pos]
      nlinarith
    have := arctan_le_self hdivnn
    linarith
  have hatan_nonneg : 0 ≤ atan2 (Real.sin x) (Real.sqrt (1 - Real.sin x * Real.sin x)) :=
    (atan2_nonneg_args hsin_nonneg hsqB_pos.le).1
  have heq : (6371 : ℝ) * (2 * atan2 (Real.sin x) (Real.sqrt (1 - Real.sin x * Real.sin x)))
      / 6371 = 2 * atan2 (Real.sin x) (Real.sqrt (1 - Real.sin x * Real.sin x)) := by ring
  rw [heq]
  linarith

/-- C2 counterexample.  For the one-segment route from `(0°, 0°)` to the
distinct destination `(0.0001°, 0°)` (about 11 metres away, below the
degeneracy guard), every generated waypoint is the origin: the final waypoint
has latitude `0`, not the destination latitude `0.0001` — an absolute error
of `0.0001°`, far beyond floating-point tolerance. -/
theorem generateWaypoints_endpoint_counterexample :
    ((generateWaypoints ⟨0, 0⟩ ⟨1/10000, 0⟩ 1).map (fun w => w.lat) = [0, 0]) ∧
    ((1 : ℝ)/10000 ≠ 0) := by
  have hδ : calculateDistance (GeoPoint.mk 0 0).lat (GeoPoint.mk 0 0).lon
      (GeoPoint.mk (1/10000) 0).lat (GeoPoint.mk (1/10000) 0).lon
      / EARTH_RADIUS_KM < 0.00001 := smallDelta
  have hpt : ∀ f : ℝ, intermediatePoint ⟨0, 0⟩ ⟨1/10000, 0⟩ f = ⟨0, 0⟩ := by
    intro f
    simp only [intermediatePoint]
    rw [if_pos hδ]
  constructor
  · show ((handleAntimeridianCrossing
      ((List.range (1 + 1)).map (rawWaypoint ⟨0, 0⟩ ⟨1/10000, 0⟩ 1))).map
        (fun w => w.lat)) = [0, 0]
    have hrange : List.range (1 + 1) = [0, 1] := rfl
    rw [hrange]
    simp only [List.map_cons, List.map_nil]
    simp only [rawWaypoint, hpt]
    simp only [handleAntimeridianCrossing, hacAux]
    norm_num
  · norm_num

/-- C2 as amended.  For endpoints away from the poles and the antimeridian
and an angular separation in `[0.00001, π)`, `generateWaypoints` returns
`n + 1` waypoints whose first entry is exactly the origin, whose last entry
has the destination's latitude and the destination's longitude up to the
±360° antimeridian correction, and whose cumulative distances are
non-decreasing; for nearer pairs every waypoint collapses to the origin (the
behaviour refuted by the counterexample). -/
theorem generateWaypoints_endpoints (o d : GeoPoint) (n : ℕ) (hn : 1 ≤ n)
    (ho1 : -90 < o.lat) (ho2 : o.lat < 90) (ho3 : -180 < o.lon) (ho4 : o.lon < 180)
    (hd1 : -90 < d.lat) (hd2 : d.lat < 90) (hd3 : -180 < d.lon) (hd4 : d.lon < 180)
    (hsep1 : 0.00001 ≤ calculateDistance o.lat o.lon d.lat d.lon / EARTH_RADIUS_KM)
    (hsep2 : calculateDistance o.lat o.lon d.lat d.lon / EARTH_RADIUS_KM < π) :
    (generateWaypoints o d n).length = n + 1 ∧
    (∀ h0 : 0 < (generateWaypoints o d n).length,
      ((generateWaypoints o d n).get ⟨0, h0⟩).lat = o.lat ∧
      ((generateWaypoints o d n).get ⟨0, h0⟩).lon = o.lon) ∧
    (∀ hnlt : n < (generateWaypoints o d n).length,
      ((generateWaypoints o d n).get ⟨n, hnlt⟩).lat = d.lat ∧
      ∃ k : ℤ, ((generateWaypoints o d n).get ⟨n, hnlt⟩).lon = d.lon + 360 * (k : ℝ)) ∧
    List.Chain' (fun a b => a.distance ≤ b.distance) (generateWaypoints o d n) := by
  have hncast : ((n : ℝ)) ≠ 0 := Nat.cast_ne_zero.mpr (by omega)
  set raw := (List.range (n + 1)).map (rawWaypoint o d n) with hraw
  have hgen : generateWaypoints o d n = handleAntimeridianCrossing raw := rfl
  have hF := hac_forall2 raw
  have hlenraw : raw.length = n + 1 := by
    rw [hraw, List.length_map, List.length_range]
  have hlen : (generateWaypoints o d n).length = n + 1 := by
    rw [hgen, ← hF.length_eq, hlenraw]
  refine ⟨hlen, ?_, ?_, ?_⟩
  · intro h0
    have hcons : raw = rawWaypoint o d n 0
        :: ((List.range n).map Nat.succ).map (rawWaypoint o d n) := by
      rw [hraw, List.range_succ_eq_map, List.map_cons, List.map_map]
    have h1 : generateWaypoints o d n = rawWaypoint o d n 0
        :: hacAux (rawWaypoint o d n 0).lon
          (((List.range n).map Nat.succ).map (rawWaypoint o d n)) := by
      rw [hgen, hcons]
      rfl
    have hget : (generateWaypoints o d n).get ⟨0, h0⟩ = rawWaypoint o d n 0 :=
      (List.get_of_eq h1 ⟨0, h0⟩).trans rfl
    rw [hget]
    have hfrac0 : ((0 : ℕ) : ℝ) / ((n : ℝ)) = 0 := by
      rw [Nat.cast_zero, zero_div]
    constructor
    · show (rawWaypoint o d n 0).lat = o.lat
      simp only [rawWaypoint, hfrac0, intermediatePoint_zero o d ho1 ho2 ho3 ho4 hsep1 hsep2]
    · show (rawWaypoint o d n 0).lon = o.lon
      simp only [rawWaypoint, hfrac0, intermediatePoint_zero o d ho1 ho2 ho3 ho4 hsep1 hsep2]
  · intro hnlt
    have hnlt_raw : n < raw.length := by
      rw [hlenraw]
      omega
    have hnlt' : n < (handleAntimeridianCrossing raw).length := by
      rw [← hF.length_eq]
      exact hnlt_raw
    have hrel := hF.get (i := n) hnlt_raw hnlt'
    have hrawn : raw.get ⟨n, hnlt_raw⟩ = rawWaypoint o d n n := by
      rw [List.get_of_eq hraw ⟨n, hnlt_raw⟩]
      simp [List.get_eq_getElem]
    rw [hrawn] at hrel
    have hfrac : ((n : ℝ)) / ((n : ℝ)) = 1 := div_self hncast
    have hlast : (rawWaypoint o d n n).lat = d.lat ∧ (rawWaypoint o d n n).lon = d.lon := by
      constructor
      · simp only [rawWaypoint, hfrac, intermediatePoint_one o d hd1 hd2 hd3 hd4 hsep1 hsep2]
      · simp only [rawWaypoint, hfrac, intermediatePoint_one o d hd1 hd2 hd3 hd4 hsep1 hsep2]
    obtain ⟨hlat, _, _, k, hlon⟩ := hrel
    constructor
    · show ((handleAntimeridianCrossing raw).get ⟨n, hnlt'⟩).lat = d.lat
      rw [hlat, hlast.1]
    · refine ⟨k, ?_⟩
      show ((handleAntimeridianCrossing raw).get ⟨n, hnlt'⟩).lon = d.lon + 360 * (k : ℝ)
      rw [hlon, hlast.2]
  · show List.Chain' (fun a b => a.distance ≤ b.distance) (handleAntimeridianCrossing raw)
    refine (List.chain'_map (fun w : Waypoint => w.distance)).mp ?_
    rw [hac_map_distance raw, hraw, List.map_map]
    refine (List.chain'_map ((fun w : Waypoint => w.distance) ∘ rawWaypoint o d n)).mpr ?_
    refine (List.chain'_range_succ _ n).mpr ?_
    intro m hm
    simp only [Function.comp, rawWaypoint]
    have htot := calculateDistance_nonneg o.lat o.lon d.lat d.lon
    have hnpos : (0 : ℝ) < (n : ℝ) := by
      have : 0 < n := by omega
      exact_mod_cast this
    have hfrac : ((m : ℝ)) / ((n : ℝ)) ≤ (((m + 1 : ℕ) : ℝ)) / ((n : ℝ)) := by
      gcongr
      · push_cast
        linarith
    exact mul_le_mul_of_nonneg_left hfrac htot

lemma distEval : calculateDistance 0 0 0 90 / EARTH_RADIUS_KM = π / 2 := by
  simp only [calculateDistance, EARTH_RADIUS_KM, toRadians]
  have e1 : ((0 - 0 : ℝ) * π / 180) / 2 = 0 := by ring
  have e2 : ((90 - 0 : ℝ) * π / 180) / 2 = π / 4 := by ring
  have e3 : (0 : ℝ) * π / 180 = 0 := by ring
  rw [e1, e2, e3, Real.sin_zero, Real.cos_zero, Real.sin_pi_div_four]
  simp only [zero_mul, mul_zero, zero_add, one_mul]
  have hA : Real.sqrt 2 / 2 * (Real.sqrt 2 / 2) = 1 / 2 := by
    rw [div_mul_div_comm, Real.mul_self_sqrt (by norm_num : (0:ℝ) ≤ 2)]
    norm_num
  rw [hA, show (1 : ℝ) - 1 / 2 = 1 / 2 by norm_num]
  have hs_pos : 0 < Real.sqrt (1 / 2) := Real.sqrt_pos.mpr (by norm_num)
  unfold atan2
  rw [if_pos hs_pos, div_self hs_pos.ne', arctan_one]
  ring

/-- Witness for the amended C2 on the equator quarter-circle route
`(0,0) → (0,90)` with one segment. -/
theorem generateWaypoints_endpoints_witness :
    (generateWaypoints ⟨0, 0⟩ ⟨0, 90⟩ 1).length = 1 + 1 ∧
    List.Chain' (fun a b => a.distance ≤ b.distance) (generateWaypoints ⟨0, 0⟩ ⟨0, 90⟩ 1) := by
  have hπ1 : 3.141592 < π := pi_gt_d6
  have h := generateWaypoints_endpoints ⟨0, 0⟩ ⟨0, 90⟩ 1 (le_refl 1)
    (by norm_num) (by norm_num) (by norm_num) (by norm_num)
    (by norm_num) (by norm_num) (by norm_num) (by norm_num)
    (by show (0.00001:ℝ) ≤ calculateDistance 0 0 0 90 / EARTH_RADIUS_KM
        rw [distEval]; linarith)
    (by show calculateDistance 0 0 0 90 / EARTH_RADIUS_KM < π
        rw [distEval]; linarith [pi_pos])
  exact ⟨h.1, h.2.2.2⟩

/-! ## C3: strict monotonicity of timeline timestamps -/

lemma chain'_of_length_le_one {α : Type} {R : α → α → Prop} :
    ∀ l : List α, l.length ≤ 1 → List.Chain' R l
  | [], _ => List.chain'_nil
  | [a], _ => List.chain'_singleton a
  | _ :: _ :: _, h => absurd h (by simp)

lemma mapIdx_map_timestamp (wps : List Waypoint) (len : ℕ) (dep dur spd altF : ℝ) :
    (wps.mapIdx (timelinePointAt len dep dur spd altF)).map (fun p => p.timestamp)
    = (List.range wps.length).map
        (fun i : ℕ => dep + dur * ((i : ℝ) / ((len : ℝ) - 1)) * 60000) := by
  rw [List.mapIdx_eq_enum_map, List.map_map]
  have h : ((fun p : TimelinePoint => p.timestamp)
        ∘ Function.uncurry (timelinePointAt len dep dur spd altF))
      = (fun i : ℕ => dep + dur * ((i : ℝ) / ((len : ℝ) - 1)) * 60000) ∘ Prod.fst := by
    funext p
    rfl
  rw [h, ← List.map_map, List.enum_map_fst]

/-- C3 counterexample.  For the coincident pair `(0,0) → (0,0)` (explicitly
included by the claim) the flight distance and duration are zero, so all
timeline points carry the departure timestamp: the timestamps are not
strictly increasing. -/
theorem timeline_timestamps_counterexample :
    (generateFlightTimeline ⟨0, 0⟩ ⟨0, 0⟩ 0 1).points.length = 2 ∧
    ¬ List.Chain' (fun a b : TimelinePoint => a.timestamp < b.timestamp)
        (generateFlightTimeline ⟨0, 0⟩ ⟨0, 0⟩ 0 1).points := by
  have hδ : calculateDistance (GeoPoint.mk 0 0).lat (GeoPoint.mk 0 0).lon
      (GeoPoint.mk 0 0).lat (GeoPoint.mk 0 0).lon / EARTH_RADIUS_KM < 0.00001 := by
    show calculateDistance 0 0 0 0 / EARTH_RADIUS_KM < 0.00001
    rw [calculateDistance_self]
    norm_num [EARTH_RADIUS_KM]
  have hpt : ∀ f : ℝ, intermediatePoint ⟨0, 0⟩ ⟨0, 0⟩ f = ⟨0, 0⟩ := by
    intro f
    simp only [intermediatePoint]
    rw [if_pos hδ]
  have hlon : ∀ i : ℕ, (rawWaypoint ⟨0, 0⟩ ⟨0, 0⟩ 1 i).lon = 0 := by
    intro i
    simp only [rawWaypoint, hpt]
  have hw : generateWaypoints ⟨0, 0⟩ ⟨0, 0⟩ 1
      = [rawWaypoint ⟨0, 0⟩ ⟨0, 0⟩ 1 0, rawWaypoint ⟨0, 0⟩ ⟨0, 0⟩ 1 1] := by
    show handleAntimeridianCrossing
      ((List.range (1 + 1)).map (rawWaypoint ⟨0, 0⟩ ⟨0, 0⟩ 1)) = _
    rw [show List.range (1 + 1) = [0, 1] from rfl]
    simp only [List.map_cons, List.map_nil]
    simp only [handleAntimeridianCrossing, hacAux]
    have h1 : ¬((rawWaypoint ⟨0, 0⟩ ⟨0, 0⟩ 1 1).lon
        - (rawWaypoint ⟨0, 0⟩ ⟨0, 0⟩ 1 0).lon > 180) := by
      rw [hlon 0, hlon 1]
      norm_num
    have h2 : ¬((rawWaypoint ⟨0, 0⟩ ⟨0, 0⟩ 1 1).lon
        - (rawWaypoint ⟨0, 0⟩ ⟨0, 0⟩ 1 0).lon < -180) := by
      rw [hlon 0, hlon 1]
      norm_num
    rw [if_neg h1, if_neg h2]
  have hd1 : (rawWaypoint ⟨0, 0⟩ ⟨0, 0⟩ 1 1).distance = 0 := by
    simp only [rawWaypoint]
    show calculateDistance 0 0 0 0 * _ = 0
    rw [calculateDistance_self, zero_mul]
  have hpts : (generateFlightTimeline ⟨0, 0⟩ ⟨0, 0⟩ 0 1).points
      = [timelinePointAt 2 0 0 850 37000 0 (rawWaypoint ⟨0, 0⟩ ⟨0, 0⟩ 1 0),
         timelinePointAt 2 0 0 850 37000 1 (rawWaypoint ⟨0, 0⟩ ⟨0, 0⟩ 1 1)] := by
    show (generateWaypoints ⟨0, 0⟩ ⟨0, 0⟩ 1).mapIdx
      (timelinePointAt (generateWaypoints ⟨0, 0⟩ ⟨0, 0⟩ 1).length 0
        ((match (generateWaypoints ⟨0, 0⟩ ⟨0, 0⟩ 1).getLast? with
          | some w => w.distance
          | none => 0) / 850 * 60) 850 37000) = _
    rw [hw]
    show [rawWaypoint ⟨0, 0⟩ ⟨0, 0⟩ 1 0, rawWaypoint ⟨0, 0⟩ ⟨0, 0⟩ 1 1].mapIdx
      (timelinePointAt 2 0
        ((rawWaypoint ⟨0, 0⟩ ⟨0, 0⟩ 1 1).distance / 850 * 60) 850 37000) = _
    rw [hd1, show (0 : ℝ) / 850 * 60 = 0 from by norm_num]
    rfl
  rw [hpts]
  have ht : ∀ (i : ℕ) w, (timelinePointAt 2 0 0 850 37000 i w).timestamp = 0 := by
    intro i w
    simp only [timelinePointAt]
    ring
  constructor
  · rfl
  · intro hchain
    rw [List.chain'_cons] at hchain
    have := hchain.1
    rw [ht, ht] at this
    exact lt_irrefl 0 this

/-- C3 as amended.  For every origin/destination pair at positive great-circle
distance (coincident pairs excluded: there all timestamps equal the departure
instant, as the counterexample shows), consecutive timeline timestamps
strictly increase. -/
theorem generateFlightTimeline_strictMono (o d : Airport) (dep : ℝ) (n : ℕ)
    (hpos : 0 < calculateDistance o.lat o.lon d.lat d.lon) :
    List.Chain' (fun a b => a.timestamp < b.timestamp)
      (generateFlightTimeline o d dep n).points := by
  rcases Nat.eq_zero_or_pos n with rfl | hn
  · apply chain'_of_length_le_one
    have h := (hac_forall2 ((List.range (0 + 1)).map
      (rawWaypoint ⟨o.lat, o.lon⟩ ⟨d.lat, d.lon⟩ 0))).length_eq
    simp only [generateFlightTimeline, List.length_mapIdx]
    show (handleAntimeridianCrossing ((List.range (0 + 1)).map
      (rawWaypoint ⟨o.lat, o.lon⟩ ⟨d.lat, d.lon⟩ 0))).length ≤ 1
    rw [← h]
    simp
  · set o' : GeoPoint := ⟨o.lat, o.lon⟩ with ho'
    set d' : GeoPoint := ⟨d.lat, d.lon⟩ with hd'
    set raw := (List.range (n + 1)).map (rawWaypoint o' d' n) with hraw
    set wps := generateWaypoints o' d' n with hwps
    have hgen : wps = handleAntimeridianCrossing raw := rfl
    have hlenwps : wps.length = n + 1 := by
      rw [hgen, ← (hac_forall2 raw).length_eq, hraw]
      simp
    have hnne : ((n : ℝ)) ≠ 0 := Nat.cast_ne_zero.mpr (by omega)
    have hmapd : wps.map (fun w => w.distance)
        = (List.range (n + 1)).map
            (fun i : ℕ => calculateDistance o.lat o.lon d.lat d.lon * ((i : ℝ) / (n : ℝ))) := by
      rw [hgen, hac_map_distance, hraw, List.map_map]
      rfl
    have hne : wps ≠ [] := by
      intro hcon
      rw [hcon] at hlenwps
      simp at hlenwps
    obtain ⟨wlast, hwl⟩ := Option.isSome_iff_exists.mp (List.getLast?_isSome.mpr hne)
    have hwd : wlast.distance = calculateDistance o.lat o.lon d.lat d.lon := by
      have h1 : (wps.map (fun w => w.distance)).getLast? = some wlast.distance := by
        rw [List.getLast?_map, hwl]
        rfl
      rw [hmapd, List.range_succ, List.map_append] at h1
      simp only [List.map_cons, List.map_nil, List.getLast?_concat] at h1
      have h3 := Option.some.inj h1
      rw [← h3, div_self hnne, mul_one]
    have hpoints : (generateFlightTimeline o d dep n).points
        = wps.mapIdx (timelinePointAt wps.length dep
            (wlast.distance / 850 * 60) 850 37000) := by
      show wps.mapIdx (timelinePointAt wps.length dep
        ((match wps.getLast? with | some w => w.distance | none => 0) / 850 * 60) 850 37000) = _
      rw [hwl]
    rw [hpoints]
    refine (List.chain'_map (fun p : TimelinePoint => p.timestamp)).mp ?_
    rw [mapIdx_map_timestamp]
    refine (List.chain'_map _).mpr ?_
    rw [hlenwps]
    refine (List.chain'_range_succ _ n).mpr ?_
    intro i hi
    have hdur : 0 < wlast.distance / 850 * 60 := by
      rw [hwd]
      positivity
    have hnpos : (0 : ℝ) < (n : ℝ) := by exact_mod_cast hn
    simp only [Nat.succ_eq_add_one]
    have hden : (((n + 1 : ℕ) : ℝ) - 1) = (n : ℝ) := by
      push_cast
      ring
    rw [hden]
    have hfrac : ((i : ℝ)) / (n : ℝ) < (((i + 1 : ℕ)) : ℝ) / (n : ℝ) := by
      rw [div_lt_div_iff hnpos hnpos]
      push_cast
      nlinarith
    have h2 := mul_lt_mul_of_pos_left hfrac hdur
    have h3 := mul_lt_mul_of_pos_right h2 (by norm_num : (0 : ℝ) < 60000)
    linarith

/-- Witness for the hypothesis of the amended C3 theorem: the route
`(0,0) → (0,90)` has positive distance, so its two-point timeline has
strictly increasing timestamps. -/
theorem generateFlightTimeline_strictMono_witness :
    List.Chain' (fun a b : TimelinePoint => a.timestamp < b.timestamp)
      (generateFlightTimeline ⟨0, 0⟩ ⟨0, 90⟩ 0 1).points := by
  apply generateFlightTimeline_strictMono ⟨0, 0⟩ ⟨0, 90⟩ 0 1
  show 0 < calculateDistance 0 0 0 90
  have h := distEval
  have hR : (EARTH_RADIUS_KM : ℝ) ≠ 0 := by norm_num [EARTH_RADIUS_KM]
  have hc : calculateDistance 0 0 0 90 = π / 2 * EARTH_RADIUS_KM := (div_eq_iff hR).mp h
  rw [hc]
  simp only [EARTH_RADIUS_KM]
  positivity

/-! ## C9: continuity of corrected longitude deltas -/

/-- Cosine and sine of `atan2 y x` are the normalized coordinates, for any
nonzero vector `(x, y)`. -/
lemma atan2_cos_sin (y x : ℝ) (h : x ≠ 0 ∨ y ≠ 0) :
    Real.cos (atan2 y x) = x / Real.sqrt (x ^ 2 + y ^ 2) ∧
    Real.sin (atan2 y x) = y / Real.sqrt (x ^ 2 + y ^ 2) := by
  have hr2 : 0 < x ^ 2 + y ^ 2 := by
    rcases h with h | h
    · nlinarith [pow_two_pos_of_ne_zero h, sq_nonneg y]
    · nlinarith [pow_two_pos_of_ne_zero h, sq_nonneg x]
  have hr : 0 < Real.sqrt (x ^ 2 + y ^ 2) := Real.sqrt_pos.mpr hr2
  unfold atan2
  rcases lt_trichotomy x 0 with hx | hx | hx
  · rw [if_neg (by linarith), if_pos hx]
    have hsq : Real.sqrt (1 + (y / x) ^ 2) = Real.sqrt (x ^ 2 + y ^ 2) / (-x) := by
      rw [show 1 + (y / x) ^ 2 = (x ^ 2 + y ^ 2) / (-x) ^ 2 by
        field_simp [hx.ne]]
      rw [Real.sqrt_div (by positivity) ((-x) ^ 2), Real.sqrt_sq (by linarith)]
    by_cases hy : 0 ≤ y
    · rw [if_pos hy]
      constructor
      · rw [Real.cos_add, Real.cos_pi, Real.sin_pi, Real.cos_arctan, hsq]
        field_simp [hx.ne, hr.ne.symm]
      · rw [Real.sin_add, Real.sin_pi, Real.cos_pi, Real.sin_arctan, hsq]
        field_simp [hx.ne, hr.ne.symm]
        ring
    · rw [if_neg hy]
      constructor
      · rw [Real.cos_sub, Real.cos_pi, Real.sin_pi, Real.cos_arctan, hsq]
        field_simp [hx.ne, hr.ne.symm]
      · rw [Real.sin_sub, Real.sin_pi, Real.cos_pi, Real.sin_arctan, hsq]
        field_simp [hx.ne, hr.ne.symm]
        ring
  · subst hx
    rw [if_neg (lt_irrefl 0), if_neg (lt_irrefl 0)]
    have hy : y ≠ 0 := by
      rcases h with h | h
      · exact absurd rfl h
      · exact h
    have hyy : Real.sqrt ((0 : ℝ) ^ 2 + y ^ 2) = |y| := by
      rw [show (0 : ℝ) ^ 2 + y ^ 2 = y ^ 2 by ring, Real.sqrt_sq_eq_abs]
    rcases lt_or_gt_of_ne hy with hy2 | hy2
    · rw [if_neg (by linarith), if_pos hy2]
      constructor
      · rw [Real.cos_neg, Real.cos_pi_div_two, hyy, zero_div]
      · rw [Real.sin_neg, Real.sin_pi_div_two, hyy, abs_of_neg hy2, div_neg,
          div_self hy]
    · rw [if_pos hy2]
      constructor
      · rw [Real.cos_pi_div_two, hyy, zero_div]
      · rw [Real.sin_pi_div_two, hyy, abs_of_pos hy2, div_self hy]
  · rw [if_pos hx]
    have hsq : Real.sqrt (1 + (y / x) ^ 2) = Real.sqrt (x ^ 2 + y ^ 2) / x := by
      rw [show 1 + (y / x) ^ 2 = (x ^ 2 + y ^ 2) / x ^ 2 by field_simp [hx.ne']]
      rw [Real.sqrt_div (by positivity) (x ^ 2), Real.sqrt_sq hx.le]
    constructor
    · rw [Real.cos_arctan, hsq, one_div_div]
    · rw [Real.sin_arctan, hsq]
      field_simp [hx.ne', hr.ne.symm]

/-- If the vector `(x, y)` has positive inner product with the unit vector at
angle `theta`, the angle `atan2 y x` lies within a quarter turn of `theta`. -/
lemma cos_atan2_sub_pos (y x theta : ℝ) (h : 0 < x * Real.cos theta + y * Real.sin theta) :
    0 < Real.cos (atan2 y x - theta) := by
  have hne : x ≠ 0 ∨ y ≠ 0 := by
    by_contra hcon
    push_neg at hcon
    rw [hcon.1, hcon.2] at h
    simp at h
  obtain ⟨hc, hs⟩ := atan2_cos_sin y x hne
  have hr2 : 0 < x ^ 2 + y ^ 2 := by
    rcases hne with h' | h'
    · nlinarith [pow_two_pos_of_ne_zero h', sq_nonneg y]
    · nlinarith [pow_two_pos_of_ne_zero h', sq_nonneg x]
  have hr : 0 < Real.sqrt (x ^ 2 + y ^ 2) := Real.sqrt_pos.mpr hr2
  rw [Real.cos_sub, hc, hs]
  have heq : x / Real.sqrt (x ^ 2 + y ^ 2) * Real.cos theta
      + y / Real.sqrt (x ^ 2 + y ^ 2) * Real.sin theta
      = (x * Real.cos theta + y * Real.sin theta) / Real.sqrt (x ^ 2 + y ^ 2) := by
    ring
  rw [heq]
  exact div_pos h hr

/-- An angle with positive cosine can be shifted by a multiple of `2 * pi`
into the open interval `(-pi/2, pi/2)`. -/
lemma exists_period_shift {dlt : ℝ} (h : 0 < Real.cos dlt) :
    ∃ e : ℤ, dlt - 2 * π * e ∈ Set.Ioo (-(π / 2)) (π / 2) := by
  have hπ := pi_pos
  refine ⟨round (dlt / (2 * π)), ?_⟩
  have h2π : (0 : ℝ) < 2 * π := by positivity
  have hb : |dlt / (2 * π) - round (dlt / (2 * π))| ≤ 1 / 2 := abs_sub_round _
  set e := round (dlt / (2 * π)) with he
  have hrw : dlt - 2 * π * e = (dlt / (2 * π) - e) * (2 * π) := by
    field_simp
  have habs : |dlt - 2 * π * e| ≤ π := by
    rw [hrw, abs_mul, abs_of_pos h2π]
    calc |dlt / (2 * π) - (e : ℝ)| * (2 * π) ≤ 1 / 2 * (2 * π) :=
          mul_le_mul_of_nonneg_right hb h2π.le
      _ = π := by ring
  have hcos : 0 < Real.cos (dlt - 2 * π * e) := by
    rw [show dlt - 2 * π * (e : ℝ) = dlt + (-e : ℤ) * (2 * π) by push_cast; ring,
      Real.cos_add_int_mul_two_pi]
    exact h
  rw [abs_le] at habs
  constructor
  · by_contra hcon
    push_neg at hcon
    have hnn : Real.cos (dlt - 2 * π * e) ≤ 0 := by
      have h2 := Real.cos_nonpos_of_pi_div_two_le_of_le
        (x := -(dlt - 2 * π * e)) (by linarith) (by linarith)
      rwa [Real.cos_neg] at h2
    linarith
  · by_contra hcon
    push_neg at hcon
    have hnn : Real.cos (dlt - 2 * π * e) ≤ 0 :=
      Real.cos_nonpos_of_pi_div_two_le_of_le (by linarith) (by linarith)
    linarith

/-- Transport of the quarter-turn window to degrees: a `2 * pi * e` radian
shift becomes a `360 * e` degree shift. -/
lemma toDegrees_shift_mem {t th : ℝ} (e : ℤ) (h : t - th - 2 * π * e ∈ Set.Ioo (-(π / 2)) (π / 2)) :
    toDegrees t - 360 * (e : ℝ) ∈ Set.Ioo (toDegrees th - 90) (toDegrees th + 90) := by
  obtain ⟨h1, h2⟩ := h
  have hπ := pi_pos
  have hc : (0 : ℝ) < 180 / π := by positivity
  constructor
  · have h1' := mul_lt_mul_of_pos_right (show th - π / 2 + 2 * π * (e : ℝ) < t by linarith) hc
    have e1 : (th - π / 2 + 2 * π * (e : ℝ)) * (180 / π)
        = th * 180 / π - 90 + 360 * (e : ℝ) := by
      field_simp
      ring
    rw [e1] at h1'
    simp only [toDegrees]
    have e2 : t * (180 / π) = t * 180 / π := by ring
    rw [e2] at h1'
    linarith
  · have h2' := mul_lt_mul_of_pos_right (show t < th + π / 2 + 2 * π * (e : ℝ) by linarith) hc
    have e1 : (th + π / 2 + 2 * π * (e : ℝ)) * (180 / π)
        = th * 180 / π + 90 + 360 * (e : ℝ) := by
      field_simp
      ring
    rw [e1] at h2'
    simp only [toDegrees]
    have e2 : t * (180 / π) = t * 180 / π := by ring
    rw [e2] at h2'
    linarith

/-- Range of `atan2`: always in `(-pi, pi]`. -/
lemma atan2_mem_Ioc (y x : ℝ) : -π < atan2 y x ∧ atan2 y x ≤ π := by
  have hπ := pi_pos
  unfold atan2
  rcases lt_trichotomy x 0 with hx | hx | hx
  · rw [if_neg (by linarith), if_pos hx]
    by_cases hy : 0 ≤ y
    · rw [if_pos hy]
      have ha1 := neg_pi_div_two_lt_arctan (y / x)
      have ha2 : arctan (y / x) ≤ 0 := by
        rw [show (0 : ℝ) = arctan 0 by rw [arctan_zero]]
        exact arctan_strictMono.monotone (div_nonpos_of_nonneg_of_nonpos hy hx.le)
      constructor <;> linarith
    · push_neg at hy
      rw [if_neg (not_le.mpr hy)]
      have ha1 := arctan_lt_pi_div_two (y / x)
      have ha2 : 0 < arctan (y / x) := by
        rw [show (0 : ℝ) = arctan 0 by rw [arctan_zero]]
        exact arctan_strictMono (div_pos_of_neg_of_neg hy hx)
      constructor <;> linarith
  · subst hx
    rw [if_neg (lt_irrefl 0), if_neg (lt_irrefl 0)]
    by_cases hy : 0 < y
    · rw [if_pos hy]
      constructor <;> linarith
    · rw [if_neg hy]
      by_cases hy2 : y < 0
      · rw [if_pos hy2]
        constructor <;> linarith
      · rw [if_neg hy2]
        constructor <;> linarith
  · rw [if_pos hx]
    have ha1 := neg_pi_div_two_lt_arctan (y / x)
    have ha2 := arctan_lt_pi_div_two (y / x)
    constructor <;> linarith

/-- Degrees image of an angle in `(-pi, pi]` lies in `(-180, 180]`. -/
lemma toDegrees_mem_Ioc {t : ℝ} (h1 : -π < t) (h2 : t ≤ π) :
    -180 < toDegrees t ∧ toDegrees t ≤ 180 := by
  have hπ := pi_pos
  have hc : (0 : ℝ) < 180 / π := by positivity
  simp only [toDegrees]
  constructor
  · have := mul_lt_mul_of_pos_right h1 hc
    have e1 : -π * (180 / π) = -180 := by
      field_simp
      ring
    have e2 : t * (180 / π) = t * 180 / π := by ring
    rw [e1, e2] at this
    linarith
  · have := mul_le_mul_of_nonneg_right h2 hc.le
    have e1 : π * (180 / π) = 180 := by
      field_simp
    have e2 : t * (180 / π) = t * 180 / π := by ring
    rw [e1, e2] at this
    linarith

/-- Key half-plane fact: the longitude of any nonnegative combination of two
horizontal unit directions that both lie strictly inside the half-plane around
angle `th` is, up to a multiple of 360 degrees, within 90 degrees of `th`. -/
lemma atan2_cone_mem (a b c1 c2 l1 l2 th : ℝ)
    (ha : 0 ≤ a) (hb : 0 ≤ b) (hab : 0 < a ∨ 0 < b)
    (hc1 : 0 < c1) (hc2 : 0 < c2)
    (ht1 : 0 < Real.cos (l1 - th)) (ht2 : 0 < Real.cos (l2 - th)) :
    ∃ e : ℤ, toDegrees (atan2 (a * c1 * Real.sin l1 + b * c2 * Real.sin l2)
        (a * c1 * Real.cos l1 + b * c2 * Real.cos l2)) - 360 * (e : ℝ) ∈
      Set.Ioo (toDegrees th - 90) (toDegrees th + 90) := by
  have key : 0 < (a * c1 * Real.cos l1 + b * c2 * Real.cos l2) * Real.cos th
      + (a * c1 * Real.sin l1 + b * c2 * Real.sin l2) * Real.sin th := by
    have hx : (a * c1 * Real.cos l1 + b * c2 * Real.cos l2) * Real.cos th
        + (a * c1 * Real.sin l1 + b * c2 * Real.sin l2) * Real.sin th
        = a * c1 * Real.cos (l1 - th) + b * c2 * Real.cos (l2 - th) := by
      rw [Real.cos_sub, Real.cos_sub]
      ring
    rw [hx]
    rcases hab with h | h
    · have t1 : 0 < a * c1 * Real.cos (l1 - th) := mul_pos (mul_pos h hc1) ht1
      have t2 : 0 ≤ b * c2 * Real.cos (l2 - th) :=
        mul_nonneg (mul_nonneg hb hc2.le) ht2.le
      linarith
    · have t1 : 0 ≤ a * c1 * Real.cos (l1 - th) :=
        mul_nonneg (mul_nonneg ha hc1.le) ht1.le
      have t2 : 0 < b * c2 * Real.cos (l2 - th) := mul_pos (mul_pos h hc2) ht2
      linarith
  have hcos := cos_atan2_sub_pos _ _ th key
  obtain ⟨e, he⟩ := exists_period_shift hcos
  exact ⟨e, toDegrees_shift_mem e he⟩

/-- Discrete unrolling of the date-line pass: if the previous corrected
longitude lies in an open 180-degree window and every remaining raw longitude
lies in that window up to one full turn, the pass keeps all longitudes in the
window and every consecutive delta is at most 180 in absolute value. -/
lemma hacAux_chain (L : ℝ) (ws : List Waypoint) :
    ∀ w0 : Waypoint, w0.lon ∈ Set.Ioo L (L + 180) →
    (∀ w ∈ ws, ∃ e : ℤ, -1 ≤ e ∧ e ≤ 1 ∧ w.lon - 360 * (e : ℝ) ∈ Set.Ioo L (L + 180)) →
    List.Chain (fun a b => |b.lon - a.lon| ≤ 180) w0 (hacAux w0.lon ws) := by
  induction ws with
  | nil =>
    intro w0 _ _
    exact List.Chain.nil
  | cons w ws ih =>
    intro w0 h0 hall
    obtain ⟨e, he1, he2, hu1, hu2⟩ := hall w (List.mem_cons_self w ws)
    obtain ⟨h01, h02⟩ := h0
    simp only [hacAux]
    have hecase : e = -1 ∨ e = 0 ∨ e = 1 := by omega
    rcases hecase with rfl | rfl | rfl
    · have hu1' : L < w.lon + 360 := by push_cast at hu1; linarith
      have hu2' : w.lon + 360 < L + 180 := by push_cast at hu2; linarith
      rw [if_neg (by push_neg; linarith), if_pos (by linarith)]
      refine List.Chain.cons ?_ ?_
      · show |(w.lon + 360) - w0.lon| ≤ 180
        rw [abs_le]
        constructor <;> linarith
      · exact ih { w with lon := w.lon + 360 } ⟨hu1', hu2'⟩
          (fun w' hw' => hall w' (List.mem_cons_of_mem w hw'))
    · have hu1' : L < w.lon := by push_cast at hu1; linarith
      have hu2' : w.lon < L + 180 := by push_cast at hu2; linarith
      rw [if_neg (by push_neg; linarith), if_neg (by push_neg; linarith)]
      refine List.Chain.cons ?_ ?_
      · show |w.lon - w0.lon| ≤ 180
        rw [abs_le]
        constructor <;> linarith
      · exact ih { w with lon := w.lon } ⟨hu1', hu2'⟩
          (fun w' hw' => hall w' (List.mem_cons_of_mem w hw'))
    · have hu1' : L < w.lon - 360 := by push_cast at hu1; linarith
      have hu2' : w.lon - 360 < L + 180 := by push_cast at hu2; linarith
      rw [if_pos (by linarith)]
      refine List.Chain.cons ?_ ?_
      · show |(w.lon - 360) - w0.lon| ≤ 180
        rw [abs_le]
        constructor <;> linarith
      · exact ih { w with lon := w.lon - 360 } ⟨hu1', hu2'⟩
          (fun w' hw' => hall w' (List.mem_cons_of_mem w hw'))

/-- The date-line pass is the identity when no raw delta exceeds 180. -/
lemma hacAux_eq_self (ws : List Waypoint) :
    ∀ p : ℝ, List.Chain (fun a b => |b - a| ≤ 180) p (ws.map (fun w => w.lon)) →
    hacAux p ws = ws := by
  induction ws with
  | nil =>
    intro p _
    rfl
  | cons w ws ih =>
    intro p hch
    rw [List.map_cons] at hch
    rcases hch with _ | ⟨hR, hch⟩
    rw [abs_le] at hR
    simp only [hacAux]
    rw [if_neg (by push_neg; linarith), if_neg (by push_neg; linarith)]
    rw [ih w.lon hch]

/-- A list whose elements all satisfy a predicate with pairwise differences
at most 180 is a chain for the delta relation. -/
lemma chain_of_pred {S : ℝ → Prop} (h180 : ∀ x y, S x → S y → |y - x| ≤ 180) :
    ∀ (l : List ℝ) (p : ℝ), S p → (∀ t ∈ l, S t) →
    List.Chain (fun a b => |b - a| ≤ 180) p l := by
  intro l
  induction l with
  | nil =>
    intro p _ _
    exact List.Chain.nil
  | cons t l ih =>
    intro p hp hall
    refine List.Chain.cons (h180 p t hp (hall t (List.mem_cons_self t l))) ?_
    exact ih t (hall t (List.mem_cons_self t l))
      (fun t' ht' => hall t' (List.mem_cons_of_mem t ht'))

set_option maxHeartbeats 2000000 in
/-- C9.  After the antimeridian correction pass at the end of
`generateWaypoints`, every pair of consecutive waypoints has a longitude delta
within `[-180, 180]`, for every origin/destination with latitudes strictly
inside `(-90, 90)` and canonical longitudes in `(-180, 180]`, and every point
count (individual longitudes may leave the canonical range). -/
theorem generateWaypoints_lon_chain (o d : GeoPoint) (n : ℕ)
    (ho1 : -90 < o.lat) (ho2 : o.lat < 90) (hd1 : -90 < d.lat) (hd2 : d.lat < 90)
    (ho3 : -180 < o.lon) (ho4 : o.lon ≤ 180) (hd3 : -180 < d.lon) (hd4 : d.lon ≤ 180) :
    List.Chain' (fun a b : Waypoint => |b.lon - a.lon| ≤ 180) (generateWaypoints o d n) := by
  have hπ := pi_pos
  have hcos1 : 0 < Real.cos (toRadians o.lat) := by
    apply Real.cos_pos_of_mem_Ioo
    constructor
    · have := mul_lt_mul_of_pos_right ho1 hπ
      simp only [toRadians]
      linarith
    · have := mul_lt_mul_of_pos_right ho2 hπ
      simp only [toRadians]
      linarith
  have hcos2 : 0 < Real.cos (toRadians d.lat) := by
    apply Real.cos_pos_of_mem_Ioo
    constructor
    · have := mul_lt_mul_of_pos_right hd1 hπ
      simp only [toRadians]
      linarith
    · have := mul_lt_mul_of_pos_right hd2 hπ
      simp only [toRadians]
      linarith
  simp only [generateWaypoints]
  rw [List.range_succ_eq_map, List.map_cons, List.map_map]
  show List.Chain (fun a b : Waypoint => |b.lon - a.lon| ≤ 180) (rawWaypoint o d n 0)
    (hacAux (rawWaypoint o d n 0).lon ((List.range n).map (rawWaypoint o d n ∘ Nat.succ)))
  have hlon_raw : ∀ i : ℕ,
      (rawWaypoint o d n i).lon = (intermediatePoint o d ((i : ℝ) / (n : ℝ))).lon :=
    fun i => rfl
  have hfrac : ∀ i : ℕ, i ≤ n → 0 ≤ (i : ℝ) / (n : ℝ) ∧ (i : ℝ) / (n : ℝ) ≤ 1 := by
    intro i hi
    constructor
    · positivity
    · rcases Nat.eq_zero_or_pos n with rfl | hn
      · have h0 : i = 0 := Nat.le_zero.mp hi
        subst h0
        norm_num
      · rw [div_le_one (by exact_mod_cast hn)]
        exact_mod_cast hi
  by_cases hguard : calculateDistance o.lat o.lon d.lat d.lon / EARTH_RADIUS_KM < 0.00001
  · -- degenerate guard: every interpolated point is the origin
    have hpt : ∀ f : ℝ, (intermediatePoint o d f).lon = o.lon := by
      intro f
      simp only [intermediatePoint]
      rw [if_pos hguard]
    refine hacAux_chain (o.lon - 90) _ _ ?_ ?_
    · show (rawWaypoint o d n 0).lon ∈ Set.Ioo (o.lon - 90) (o.lon - 90 + 180)
      rw [hlon_raw 0, hpt]
      exact Set.mem_Ioo.mpr ⟨by linarith, by linarith⟩
    · intro w hw
      rw [List.mem_map] at hw
      obtain ⟨j, hj, rfl⟩ := hw
      refine ⟨0, by norm_num, by norm_num, ?_⟩
      show (rawWaypoint o d n (Nat.succ j)).lon - 360 * ((0 : ℤ) : ℝ) ∈ _
      rw [hlon_raw, hpt]
      push_cast
      exact Set.mem_Ioo.mpr ⟨by linarith, by linarith⟩
  · -- the slerp branch is taken for every fraction
    have hlonx : ∀ f : ℝ, (intermediatePoint o d f).lon = toDegrees (atan2
        (Real.sin ((1 - f) * (calculateDistance o.lat o.lon d.lat d.lon / EARTH_RADIUS_KM))
            / Real.sin (calculateDistance o.lat o.lon d.lat d.lon / EARTH_RADIUS_KM)
            * Real.cos (toRadians o.lat) * Real.sin (toRadians o.lon)
          + Real.sin (f * (calculateDistance o.lat o.lon d.lat d.lon / EARTH_RADIUS_KM))
            / Real.sin (calculateDistance o.lat o.lon d.lat d.lon / EARTH_RADIUS_KM)
            * Real.cos (toRadians d.lat) * Real.sin (toRadians d.lon))
        (Real.sin ((1 - f) * (calculateDistance o.lat o.lon d.lat d.lon / EARTH_RADIUS_KM))
            / Real.sin (calculateDistance o.lat o.lon d.lat d.lon / EARTH_RADIUS_KM)
            * Real.cos (toRadians o.lat) * Real.cos (toRadians o.lon)
          + Real.sin (f * (calculateDistance o.lat o.lon d.lat d.lon / EARTH_RADIUS_KM))
            / Real.sin (calculateDistance o.lat o.lon d.lat d.lon / EARTH_RADIUS_KM)
            * Real.cos (toRadians d.lat) * Real.cos (toRadians d.lon))) := by
      intro f
      simp only [intermediatePoint]
      rw [if_neg hguard]
    have hrange : ∀ f : ℝ, -180 < (intermediatePoint o d f).lon ∧
        (intermediatePoint o d f).lon ≤ 180 := by
      intro f
      rw [hlonx f]
      exact toDegrees_mem_Ioc (atan2_mem_Ioc _ _).1 (atan2_mem_Ioc _ _).2
    have hlam1 : -π < toRadians o.lon ∧ toRadians o.lon ≤ π := by
      constructor
      · have := mul_lt_mul_of_pos_right ho3 hπ
        simp only [toRadians]
        linarith
      · have := mul_le_mul_of_nonneg_right ho4 hπ.le
        simp only [toRadians]
        linarith
    by_cases hanti : |o.lon - d.lon| = 180
    · -- antipodal meridians: every waypoint longitude is o.lon, 0 or o.lon ∓ 180
      have hcc : Real.cos (toRadians d.lon) = -Real.cos (toRadians o.lon) ∧
          Real.sin (toRadians d.lon) = -Real.sin (toRadians o.lon) := by
        rcases (abs_eq (by norm_num : (0:ℝ) ≤ 180)).mp hanti with hΔ | hΔ
        · have hrad : toRadians d.lon = toRadians o.lon - π := by
            simp only [toRadians]
            rw [show d.lon = o.lon - 180 by linarith]
            ring
          constructor
          · rw [hrad, show toRadians o.lon - π = -(π - toRadians o.lon) by ring,
              Real.cos_neg, Real.cos_pi_sub]
          · rw [hrad, show toRadians o.lon - π = -(π - toRadians o.lon) by ring,
              Real.sin_neg, Real.sin_pi_sub]
        · have hrad : toRadians d.lon = toRadians o.lon + π := by
            simp only [toRadians]
            rw [show d.lon = o.lon + 180 by linarith]
            ring
          constructor
          · rw [hrad]
            simp [Real.cos_add]
          · rw [hrad]
            simp [Real.sin_add]
      have hchar : ∀ f : ℝ, (intermediatePoint o d f).lon = o.lon ∨
          (intermediatePoint o d f).lon = 0 ∨
          (intermediatePoint o d f).lon =
            (if 0 < o.lon then o.lon - 180 else o.lon + 180) := by
        intro f
        rw [hlonx f]
        have hY : Real.sin ((1 - f) * (calculateDistance o.lat o.lon d.lat d.lon / EARTH_RADIUS_KM))
              / Real.sin (calculateDistance o.lat o.lon d.lat d.lon / EARTH_RADIUS_KM)
              * Real.cos (toRadians o.lat) * Real.sin (toRadians o.lon)
            + Real.sin (f * (calculateDistance o.lat o.lon d.lat d.lon / EARTH_RADIUS_KM))
              / Real.sin (calculateDistance o.lat o.lon d.lat d.lon / EARTH_RADIUS_KM)
              * Real.cos (toRadians d.lat) * Real.sin (toRadians d.lon)
            = (Real.sin ((1 - f) * (calculateDistance o.lat o.lon d.lat d.lon / EARTH_RADIUS_KM))
              / Real.sin (calculateDistance o.lat o.lon d.lat d.lon / EARTH_RADIUS_KM)
              * Real.cos (toRadians o.lat)
              - Real.sin (f * (calculateDistance o.lat o.lon d.lat d.lon / EARTH_RADIUS_KM))
              / Real.sin (calculateDistance o.lat o.lon d.lat d.lon / EARTH_RADIUS_KM)
              * Real.cos (toRadians d.lat)) * Real.sin (toRadians o.lon) := by
          rw [hcc.2]
          ring
        have hX : Real.sin ((1 - f) * (calculateDistance o.lat o.lon d.lat d.lon / EARTH_RADIUS_KM))
              / Real.sin (calculateDistance o.lat o.lon d.lat d.lon / EARTH_RADIUS_KM)
              * Real.cos (toRadians o.lat) * Real.cos (toRadians o.lon)
            + Real.sin (f * (calculateDistance o.lat o.lon d.lat d.lon / EARTH_RADIUS_KM))
              / Real.sin (calculateDistance o.lat o.lon d.lat d.lon / EARTH_RADIUS_KM)
              * Real.cos (toRadians d.lat) * Real.cos (toRadians d.lon)
            = (Real.sin ((1 - f) * (calculateDistance o.lat o.lon d.lat d.lon / EARTH_RADIUS_KM))
              / Real.sin (calculateDistance o.lat o.lon d.lat d.lon / EARTH_RADIUS_KM)
              * Real.cos (toRadians o.lat)
              - Real.sin (f * (calculateDistance o.lat o.lon d.lat d.lon / EARTH_RADIUS_KM))
              / Real.sin (calculateDistance o.lat o.lon d.lat d.lon / EARTH_RADIUS_KM)
              * Real.cos (toRadians d.lat)) * Real.cos (toRadians o.lon) := by
          rw [hcc.1]
          ring
        rw [hY, hX]
        set k := Real.sin ((1 - f) * (calculateDistance o.lat o.lon d.lat d.lon / EARTH_RADIUS_KM))
            / Real.sin (calculateDistance o.lat o.lon d.lat d.lon / EARTH_RADIUS_KM)
            * Real.cos (toRadians o.lat)
          - Real.sin (f * (calculateDistance o.lat o.lon d.lat d.lon / EARTH_RADIUS_KM))
            / Real.sin (calculateDistance o.lat o.lon d.lat d.lon / EARTH_RADIUS_KM)
            * Real.cos (toRadians d.lat) with hk
        rcases lt_trichotomy k 0 with hk2 | hk2 | hk2
        · right; right
          have hscale : atan2 (k * Real.sin (toRadians o.lon)) (k * Real.cos (toRadians o.lon))
              = atan2 (-Real.sin (toRadians o.lon)) (-Real.cos (toRadians o.lon)) := by
            rw [show k * Real.sin (toRadians o.lon)
                  = (-k) * (-Real.sin (toRadians o.lon)) by ring,
                show k * Real.cos (toRadians o.lon)
                  = (-k) * (-Real.cos (toRadians o.lon)) by ring]
            exact atan2_scale (by linarith)
          rw [hscale]
          by_cases hsign : 0 < o.lon
          · rw [if_pos hsign]
            have hs1 : -Real.sin (toRadians o.lon) = Real.sin (toRadians o.lon - π) := by
              rw [show toRadians o.lon - π = -(π - toRadians o.lon) by ring,
                Real.sin_neg, Real.sin_pi_sub]
            have hs2 : -Real.cos (toRadians o.lon) = Real.cos (toRadians o.lon - π) := by
              rw [show toRadians o.lon - π = -(π - toRadians o.lon) by ring,
                Real.cos_neg, Real.cos_pi_sub]
            have hpos : 0 < toRadians o.lon := by
              have := mul_pos hsign hπ
              simp only [toRadians]
              linarith
            rw [hs1, hs2, atan2_sin_cos (by linarith) (by linarith [hlam1.2]),
              show toRadians o.lon - π = toRadians (o.lon - 180) by
                simp only [toRadians]; ring,
              toDegrees_toRadians]
          · rw [if_neg hsign]
            push_neg at hsign
            have hs1 : -Real.sin (toRadians o.lon) = Real.sin (toRadians o.lon + π) := by
              simp [Real.sin_add]
            have hs2 : -Real.cos (toRadians o.lon) = Real.cos (toRadians o.lon + π) := by
              simp [Real.cos_add]
            have hnp : toRadians o.lon ≤ 0 := by
              have := mul_nonneg (neg_nonneg.mpr hsign) hπ.le
              simp only [toRadians]
              nlinarith
            rw [hs1, hs2, atan2_sin_cos (by linarith [hlam1.1]) (by linarith),
              show toRadians o.lon + π = toRadians (o.lon + 180) by
                simp only [toRadians]; ring,
              toDegrees_toRadians]
        · right; left
          rw [hk2, zero_mul, zero_mul]
          norm_num [atan2, toDegrees]
        · left
          rw [atan2_scale hk2, atan2_sin_cos hlam1.1 hlam1.2, toDegrees_toRadians]
      have hS : ∀ x y : ℝ,
          (x = o.lon ∨ x = 0 ∨ x = (if 0 < o.lon then o.lon - 180 else o.lon + 180)) →
          (y = o.lon ∨ y = 0 ∨ y = (if 0 < o.lon then o.lon - 180 else o.lon + 180)) →
          |y - x| ≤ 180 := by
        intro x y hx hy
        by_cases hsign : 0 < o.lon
        · rw [if_pos hsign] at hx hy
          rcases hx with rfl | rfl | rfl <;> rcases hy with rfl | rfl | rfl <;>
            (rw [abs_le]; constructor <;> linarith)
        · rw [if_neg hsign] at hx hy
          push_neg at hsign
          rcases hx with rfl | rfl | rfl <;> rcases hy with rfl | rfl | rfl <;>
            (rw [abs_le]; constructor <;> linarith)
      have hch : List.Chain (fun a b : ℝ => |b - a| ≤ 180) (rawWaypoint o d n 0).lon
          (((List.range n).map (rawWaypoint o d n ∘ Nat.succ)).map (fun w => w.lon)) := by
        refine chain_of_pred hS _ _ ?_ ?_
        · rw [hlon_raw 0]
          exact hchar _
        · intro t ht
          rw [List.map_map, List.mem_map] at ht
          obtain ⟨j, hj, rfl⟩ := ht
          simp only [Function.comp_apply]
          rw [hlon_raw]
          exact hchar _
      rw [hacAux_eq_self _ _ hch]
      exact (List.chain_map (fun w : Waypoint => w.lon)).mp hch
    · -- separated meridians: the half-plane argument
      obtain ⟨th, ht1, ht2⟩ : ∃ th : ℝ, 0 < Real.cos (toRadians o.lon - th) ∧
          0 < Real.cos (toRadians d.lon - th) := by
        rcases lt_or_gt_of_ne hanti with habs | habs
        · rw [abs_lt] at habs
          have hu1 : -π < (o.lon - d.lon) * π / 180 := by
            have := mul_lt_mul_of_pos_right habs.1 hπ
            linarith
          have hu2 : (o.lon - d.lon) * π / 180 < π := by
            have := mul_lt_mul_of_pos_right habs.2 hπ
            linarith
          refine ⟨(toRadians o.lon + toRadians d.lon) / 2, ?_, ?_⟩
          · have heq : toRadians o.lon - (toRadians o.lon + toRadians d.lon) / 2
                = ((o.lon - d.lon) * π / 180) / 2 := by
              simp only [toRadians]
              ring
            rw [heq]
            apply Real.cos_pos_of_mem_Ioo
            constructor
            · linarith
            · linarith
          · have heq : toRadians d.lon - (toRadians o.lon + toRadians d.lon) / 2
                = -(((o.lon - d.lon) * π / 180) / 2) := by
              simp only [toRadians]
              ring
            rw [heq]
            apply Real.cos_pos_of_mem_Ioo
            constructor
            · linarith
            · linarith
        · have hmax : o.lon - d.lon < 360 := by linarith
          have hmin : -360 < o.lon - d.lon := by linarith
          rcases lt_abs.mp habs with hgt | hgt
          · have hu1 : π < (o.lon - d.lon) * π / 180 := by
              have := mul_lt_mul_of_pos_right hgt hπ
              linarith
            have hu2 : (o.lon - d.lon) * π / 180 < 2 * π := by
              have := mul_lt_mul_of_pos_right hmax hπ
              linarith
            refine ⟨(toRadians o.lon + toRadians d.lon) / 2 + π, ?_, ?_⟩
            · have heq : toRadians o.lon - ((toRadians o.lon + toRadians d.lon) / 2 + π)
                  = ((o.lon - d.lon) * π / 180) / 2 - π := by
                simp only [toRadians]
                ring
              rw [heq]
              apply Real.cos_pos_of_mem_Ioo
              constructor
              · linarith
              · linarith
            · have heq : toRadians d.lon - ((toRadians o.lon + toRadians d.lon) / 2 + π)
                  = (π - ((o.lon - d.lon) * π / 180) / 2) - 2 * π := by
                simp only [toRadians]
                ring
              rw [heq, Real.cos_sub_two_pi]
              apply Real.cos_pos_of_mem_Ioo
              constructor
              · linarith
              · linarith
          · have hlt : o.lon - d.lon < -180 := by linarith
            have hu1 : (o.lon - d.lon) * π / 180 < -π := by
              have := mul_lt_mul_of_pos_right hlt hπ
              linarith
            have hu2 : -(2 * π) < (o.lon - d.lon) * π / 180 := by
              have := mul_lt_mul_of_pos_right hmin hπ
              linarith
            refine ⟨(toRadians o.lon + toRadians d.lon) / 2 + π, ?_, ?_⟩
            · have heq : toRadians o.lon - ((toRadians o.lon + toRadians d.lon) / 2 + π)
                  = (((o.lon - d.lon) * π / 180) / 2 + π) - 2 * π := by
                simp only [toRadians]
                ring
              rw [heq, Real.cos_sub_two_pi]
              apply Real.cos_pos_of_mem_Ioo
              constructor
              · linarith
              · linarith
            · have heq : toRadians d.lon - ((toRadians o.lon + toRadians d.lon) / 2 + π)
                  = -(((o.lon - d.lon) * π / 180) / 2) - π := by
                simp only [toRadians]
                ring
              rw [heq]
              apply Real.cos_pos_of_mem_Ioo
              constructor
              · linarith
              · linarith
      have hb' := calculateDistance_div_bounds o.lat o.lon d.lat d.lon
      have hsinnn : 0 ≤ Real.sin (calculateDistance o.lat o.lon d.lat d.lon / EARTH_RADIUS_KM) :=
        Real.sin_nonneg_of_nonneg_of_le_pi hb'.1 hb'.2
      rcases eq_or_lt_of_le hsinnn with hsin | hsin
      · -- the interpolation degenerates: every slerp longitude is 0
        have hlon0 : ∀ f : ℝ, (intermediatePoint o d f).lon = 0 := by
          intro f
          rw [hlonx f, ← hsin]
          simp [atan2, toDegrees, div_zero]
        refine hacAux_chain (-90) _ _ ?_ ?_
        · show (rawWaypoint o d n 0).lon ∈ Set.Ioo (-90) (-90 + 180)
          rw [hlon_raw 0, hlon0]
          exact Set.mem_Ioo.mpr ⟨by norm_num, by norm_num⟩
        · intro w hw
          rw [List.mem_map] at hw
          obtain ⟨j, hj, rfl⟩ := hw
          refine ⟨0, by norm_num, by norm_num, ?_⟩
          show ((rawWaypoint o d n ∘ Nat.succ) j).lon - 360 * ((0 : ℤ) : ℝ) ∈ _
          simp only [Function.comp_apply]
          rw [hlon_raw, hlon0]
          push_cast
          exact Set.mem_Ioo.mpr ⟨by norm_num, by norm_num⟩
      · -- positive sine: all waypoints sit in one half-plane copy
        have hδpos : (0 : ℝ) < calculateDistance o.lat o.lon d.lat d.lon / EARTH_RADIUS_KM := by
          have := not_lt.mp hguard
          linarith
        have hδlt : calculateDistance o.lat o.lon d.lat d.lon / EARTH_RADIUS_KM < π := by
          rcases lt_or_eq_of_le hb'.2 with h | h
          · exact h
          · rw [h, Real.sin_pi] at hsin
            exact absurd hsin (lt_irrefl 0)
        have hcopy : ∀ f : ℝ, 0 ≤ f → f ≤ 1 →
            ∃ e : ℤ, (intermediatePoint o d f).lon - 360 * (e : ℝ) ∈
              Set.Ioo (toDegrees th - 90) (toDegrees th + 90) := by
          intro f hf0 hf1
          have hA : 0 ≤ Real.sin ((1 - f) *
                (calculateDistance o.lat o.lon d.lat d.lon / EARTH_RADIUS_KM))
              / Real.sin (calculateDistance o.lat o.lon d.lat d.lon / EARTH_RADIUS_KM) := by
            apply div_nonneg _ hsin.le
            apply Real.sin_nonneg_of_nonneg_of_le_pi
            · exact mul_nonneg (by linarith) hb'.1
            · nlinarith [mul_nonneg hf0 hb'.1, hb'.2]
          have hB : 0 ≤ Real.sin (f *
                (calculateDistance o.lat o.lon d.lat d.lon / EARTH_RADIUS_KM))
              / Real.sin (calculateDistance o.lat o.lon d.lat d.lon / EARTH_RADIUS_KM) := by
            apply div_nonneg _ hsin.le
            apply Real.sin_nonneg_of_nonneg_of_le_pi
            · exact mul_nonneg hf0 hb'.1
            · nlinarith [mul_nonneg (show (0:ℝ) ≤ 1 - f by linarith) hb'.1, hb'.2]
          have hAB : 0 < Real.sin ((1 - f) *
                (calculateDistance o.lat o.lon d.lat d.lon / EARTH_RADIUS_KM))
              / Real.sin (calculateDistance o.lat o.lon d.lat d.lon / EARTH_RADIUS_KM)
              ∨ 0 < Real.sin (f *
                (calculateDistance o.lat o.lon d.lat d.lon / EARTH_RADIUS_KM))
              / Real.sin (calculateDistance o.lat o.lon d.lat d.lon / EARTH_RADIUS_KM) := by
            rcases lt_or_eq_of_le hf1 with hflt | hfeq
            · left
              apply div_pos _ hsin
              apply Real.sin_pos_of_pos_of_lt_pi
              · exact mul_pos (by linarith) hδpos
              · nlinarith [mul_nonneg hf0 hb'.1, hδlt]
            · right
              subst hfeq
              apply div_pos _ hsin
              rw [one_mul]
              exact hsin
          rw [hlonx f]
          exact atan2_cone_mem _ _ _ _ _ _ th hA hB hAB hcos1 hcos2 ht1 ht2
        obtain ⟨hf00, hf01⟩ := hfrac 0 (Nat.zero_le n)
        obtain ⟨e0, he0⟩ := hcopy _ hf00 hf01
        obtain ⟨hr0a, hr0b⟩ := hrange (((0 : ℕ) : ℝ) / (n : ℝ))
        obtain ⟨hm01, hm02⟩ := he0
        refine hacAux_chain (toDegrees th - 90 + 360 * (e0 : ℝ)) _ _ ?_ ?_
        · show (rawWaypoint o d n 0).lon ∈ Set.Ioo (toDegrees th - 90 + 360 * (e0 : ℝ))
            (toDegrees th - 90 + 360 * (e0 : ℝ) + 180)
          rw [hlon_raw 0]
          exact Set.mem_Ioo.mpr ⟨by linarith, by linarith⟩
        · intro w hw
          rw [List.mem_map] at hw
          obtain ⟨j, hj, rfl⟩ := hw
          have hjn : Nat.succ j ≤ n := Nat.succ_le_of_lt (List.mem_range.mp hj)
          obtain ⟨hf0, hf1⟩ := hfrac (Nat.succ j) hjn
          obtain ⟨ei, hei⟩ := hcopy _ hf0 hf1
          obtain ⟨hria, hrib⟩ := hrange (((Nat.succ j : ℕ) : ℝ) / (n : ℝ))
          obtain ⟨hm1, hm2⟩ := hei
          have hile : ei - e0 ≤ 1 := by
            have h2 : ((ei - e0 : ℤ) : ℝ) < 2 := by
              push_cast
              linarith
            have h3 : (ei - e0 : ℤ) < 2 := by exact_mod_cast h2
            omega
          have hige : -1 ≤ ei - e0 := by
            have h2 : (-2 : ℝ) < ((ei - e0 : ℤ) : ℝ) := by
              push_cast
              linarith
            have h3 : (-2 : ℤ) < ei - e0 := by exact_mod_cast h2
            omega
          refine ⟨ei - e0, hige, hile, ?_⟩
          show ((rawWaypoint o d n ∘ Nat.succ) j).lon - 360 * ((ei - e0 : ℤ) : ℝ) ∈
            Set.Ioo (toDegrees th - 90 + 360 * (e0 : ℝ))
              (toDegrees th - 90 + 360 * (e0 : ℝ) + 180)
          simp only [Function.comp_apply]
          rw [hlon_raw]
          have hcast : ((ei - e0 : ℤ) : ℝ) = (ei : ℝ) - (e0 : ℝ) := by
            push_cast
            ring
          rw [hcast]
          refine Set.mem_Ioo.mpr ⟨?_, ?_⟩
          · linarith
          · linarith

/-- Witness for the C9 theorem at a concrete route: the equator-to-(0,90)
route with one segment. -/
theorem generateWaypoints_lon_chain_witness :
    List.Chain' (fun a b : Waypoint => |b.lon - a.lon| ≤ 180)
      (generateWaypoints ⟨0, 0⟩ ⟨0, 90⟩ 1) :=
  generateWaypoints_lon_chain ⟨0, 0⟩ ⟨0, 90⟩ 1 (by norm_num) (by norm_num)
    (by norm_num) (by norm_num) (by norm_num) (by norm_num) (by norm_num) (by norm_num)
